import Mathlib

/-!
Verification development for the ANI regulations scraping pipeline
(extraction / validation / deduplicating persistence).

The Lean definitions below are a shallow embedding of the Python modules
`src/extraccion.py`, `src/validacion.py`, `src/validaciones.py`,
`src/escritura.py` and `lambda.py`.  Pure Python functions become Lean
functions; database and HTTP effects are passed in as explicit parameters
(page contents, bulk-insert outcomes, fetched ids).  Strings are Lean
strings (lists of characters); Python `str.strip`, `str.split`,
`str.lower`, substring tests and `datetime.strptime` for the two formats
used by the code are modelled character by character.

Modelling notes (divergences that no theorem below depends on):
* `Char.isWhitespace` / `Char.toLower` cover the ASCII range, while
  Python's `str.strip` / `str.lower` also handle further Unicode classes.
* Python `float` parsing/printing is shortest-roundtrip floating point;
  the `float` coercion branch is modelled as decimal mantissa/exponent
  parsing.  No validation rule of this repository uses the float type.
-/

set_option linter.unusedVariables false

namespace Ani

/-! ## Basic character and string helpers (models of Python primitives) -/

/-- Value of a decimal digit character. -/
def dval (c : Char) : Nat := c.toNat - 48

/-- Model of Python `str.strip` on a character list: drop leading and
trailing whitespace. -/
def pyStripL (l : List Char) : List Char :=
  ((l.dropWhile Char.isWhitespace).reverse.dropWhile Char.isWhitespace).reverse

/-- Model of Python `str.strip` on strings. -/
def pyStripS (s : String) : String := ⟨pyStripL s.data⟩

/-- Auxiliary for whitespace splitting: `acc` holds the characters of the
current token in reverse order. -/
def splitWsAux : List Char → List Char → List (List Char)
  | [], acc => if acc.isEmpty then [] else [acc.reverse]
  | c :: cs, acc =>
    if c.isWhitespace then
      if acc.isEmpty then splitWsAux cs [] else acc.reverse :: splitWsAux cs []
    else
      splitWsAux cs (c :: acc)

/-- Model of Python `str.split()` (no separator): split on whitespace runs,
dropping empty tokens. -/
def splitWsL (l : List Char) : List (List Char) := splitWsAux l []

/-- Model of Python `in` for characters: does the character occur in the
string? -/
def containsChar (s : String) (c : Char) : Bool := s.data.contains c

/-- Is `pat` a leading segment of `l`? (model of Python `str.startswith`) -/
def leadsWith : List Char → List Char → Bool
  | _, [] => true
  | [], _ :: _ => false
  | c :: cs, p :: ps => c == p && leadsWith cs ps

/-- Model of Python `str.startswith` on strings. -/
def leadsWithS (s pat : String) : Bool := leadsWith s.data pat.data

/-- Does `pat` occur as a contiguous segment of `l`? (model of Python
`pat in s`) -/
def hasSubL : List Char → List Char → Bool
  | l, pat => if leadsWith l pat then true else
      match l with
      | [] => false
      | _ :: cs => hasSubL cs pat

/-- Model of Python `pat in s` on strings. -/
def hasSubS (s pat : String) : Bool := hasSubL s.data pat.data

/-- Model of Python `str.lower` (ASCII range). -/
def pyLower (s : String) : String := ⟨s.data.map Char.toLower⟩

/-- Split a character list at every occurrence of the separator character,
keeping empty pieces — the model of Python `str.split(sep)`. -/
def splitOnCharAux (sep : Char) : List Char → List Char → List (List Char)
  | [], acc => [acc.reverse]
  | c :: cs, acc =>
    if c == sep then acc.reverse :: splitOnCharAux sep cs []
    else splitOnCharAux sep cs (c :: acc)

/-- Model of Python `str.split(sep)` on strings. -/
def splitOnCharS (s : String) (sep : Char) : List String :=
  (splitOnCharAux sep s.data []).map (fun l => ⟨l⟩)

/-- Model of Python `str.zfill(2)`: left-pad with zeros to width two. -/
def zfill2 (s : String) : String :=
  if s.length ≥ 2 then s else ⟨List.replicate (2 - s.length) '0' ++ s.data⟩

/-- Left-pad a decimal rendering with zeros to width two
(`strftime` field). -/
def pad2 (n : Nat) : String := zfill2 (toString n)

/-- Left-pad a decimal rendering with zeros to width four
(`strftime` year field). -/
def pad4 (n : Nat) : String :=
  let s := toString n
  if s.length ≥ 4 then s else ⟨List.replicate (4 - s.length) '0' ++ s.data⟩

/-! ## Naive datetimes and `datetime.strptime` for the two formats used -/

/-- A timezone-naive Python `datetime` value (microseconds are always zero
in this pipeline). -/
structure PyDateTime where
  year : Nat
  month : Nat
  day : Nat
  hour : Nat
  minute : Nat
  second : Nat
deriving DecidableEq, Repr

/-- Gregorian leap-year rule, as used by `datetime`. -/
def leapYear (y : Nat) : Bool := (y % 4 == 0 && y % 100 != 0) || y % 400 == 0

/-- Number of days of month `m` in year `y` (months outside 1..12 never
reach this check in the parsers below). -/
def daysInMonth (y m : Nat) : Nat :=
  if m = 2 then (if leapYear y then 29 else 28)
  else if m = 4 || m = 6 || m = 9 || m = 11 then 30
  else 31

/-- The final `datetime(...)` constructor validation for a date:
`MINYEAR ≤ year` and the day exists in the month. -/
def validYMD (y m d : Nat) : Bool := 1 ≤ y && d ≤ daysInMonth y m

/-- Lexicographic strict order on naive datetimes (Python `<`). -/
def pyDTlt (a b : PyDateTime) : Bool :=
  if a.year ≠ b.year then a.year < b.year
  else if a.month ≠ b.month then a.month < b.month
  else if a.day ≠ b.day then a.day < b.day
  else if a.hour ≠ b.hour then a.hour < b.hour
  else if a.minute ≠ b.minute then a.minute < b.minute
  else a.second < b.second

/-- Parse the `%Y` field: exactly four digits. -/
def parseYear : List Char → Option (Nat × List Char)
  | a :: b :: c :: d :: rest =>
    if a.isDigit && b.isDigit && c.isDigit && d.isDigit then
      some (1000 * dval a + 100 * dval b + 10 * dval c + dval d, rest)
    else none
  | _ => none

/-- Candidate parses for a one-or-two digit numeric field, in the
alternation order of CPython's `_strptime` regexes: the two-digit
alternatives come first, then the single-digit ones. -/
def numAlts (ok2 ok1 : Nat → Bool) : List Char → List (Nat × List Char)
  | c1 :: c2 :: rest =>
    (if c1.isDigit && c2.isDigit && ok2 (10 * dval c1 + dval c2) then
      [(10 * dval c1 + dval c2, rest)] else []) ++
    (if c1.isDigit && ok1 (dval c1) then [(dval c1, c2 :: rest)] else [])
  | [c1] => if c1.isDigit && ok1 (dval c1) then [(dval c1, [])] else []
  | [] => []

/-- Try the alternatives in order with the given continuation — the model
of regex alternation with backtracking. -/
def tryAlts {α : Type} : List (Nat × List Char) → (Nat → List Char → Option α) → Option α
  | [], _ => none
  | (n, rest) :: more, k =>
    match k n rest with
    | some r => some r
    | none => tryAlts more k

/-- Format field `%m`: `1[0-2]|0[1-9]|[1-9]`. -/
def monthAlts : List Char → List (Nat × List Char) :=
  numAlts (fun n => 1 ≤ n && n ≤ 12) (fun n => 1 ≤ n)

/-- Format field `%d`: `3[01]|[12]\d|0[1-9]|[1-9]`. -/
def dayAlts : List Char → List (Nat × List Char) :=
  numAlts (fun n => 1 ≤ n && n ≤ 31) (fun n => 1 ≤ n)

/-- Format field `%H`: `2[0-3]|[0-1]\d|\d`. -/
def hourAlts : List Char → List (Nat × List Char) :=
  numAlts (fun n => n ≤ 23) (fun _ => true)

/-- Format field `%M`: `[0-5]\d|\d`. -/
def minuteAlts : List Char → List (Nat × List Char) :=
  numAlts (fun n => n ≤ 59) (fun _ => true)

/-- Format field `%S`: `6[0-1]|[0-5]\d|\d` (values 60/61 are later rejected by the
`datetime` constructor). -/
def secondAlts : List Char → List (Nat × List Char) :=
  numAlts (fun n => n ≤ 61) (fun _ => true)

/-- Shared `%Y-%m-%d` front of both formats, continuation-passing so the
two `strptime` models reuse it. -/
def parseYMDcore {α : Type} (cs : List Char) (k : Nat → Nat → Nat → List Char → Option α) :
    Option α :=
  match parseYear cs with
  | none => none
  | some (y, rest) =>
    match rest with
    | '-' :: r2 =>
      tryAlts (monthAlts r2) (fun m r3 =>
        match r3 with
        | '-' :: r4 => tryAlts (dayAlts r4) (fun d r5 => k y m d r5)
        | _ => none)
    | _ => none

/-- Model of `datetime.strptime(s, "%Y-%m-%d")`: full match required, then
the `datetime` constructor check. -/
def strptimeYmd (s : String) : Option PyDateTime :=
  parseYMDcore s.data (fun y m d rest =>
    if rest.isEmpty then
      if validYMD y m d then some ⟨y, m, d, 0, 0, 0⟩ else none
    else none)

/-- Model of `datetime.strptime(s, "%Y-%m-%d %H:%M:%S")`: the space in the
format matches one or more whitespace characters (`\s+`), the constructor
additionally requires `second ≤ 59`. -/
def strptimeYmdHMS (s : String) : Option PyDateTime :=
  parseYMDcore s.data (fun y m d rest =>
    let ws := rest.takeWhile Char.isWhitespace
    let r2 := rest.dropWhile Char.isWhitespace
    if ws.isEmpty then none
    else
      tryAlts (hourAlts r2) (fun hh r3 =>
        match r3 with
        | ':' :: r4 =>
          tryAlts (minuteAlts r4) (fun mm r5 =>
            match r5 with
            | ':' :: r6 =>
              tryAlts (secondAlts r6) (fun ss r7 =>
                if r7.isEmpty then
                  if validYMD y m d && ss ≤ 59 then some ⟨y, m, d, hh, mm, ss⟩ else none
                else none)
            | _ => none)
        | _ => none))

/-- Model of `strftime("%Y-%m-%d")`. -/
def fmtYMD (d : PyDateTime) : String :=
  pad4 d.year ++ "-" ++ pad2 d.month ++ "-" ++ pad2 d.day

/-! ## Extraction module (`src/extraccion.py`) -/

/-- The constant `ENTITY_VALUE`. -/
def ENTITY_VALUE : String := "Agencia Nacional de Infraestructura"

/-- The constant `FIXED_CLASSIFICATION_ID`. -/
def FIXED_CLASSIFICATION_ID : Int := 13

/-- The constant `DEFAULT_RTYPE_ID`. -/
def DEFAULT_RTYPE_ID : Int := 14

/-- The set of quote characters removed by `clean_quotes` (the union of
its replacement map and its regex character class). -/
def isQuoteChar (c : Char) : Bool :=
  c == '“' || c == '”' || c == '‘' || c == '’' ||
  c == '«' || c == '»' || c == '„' || c == '‚' ||
  c == '‹' || c == '›' || c == '"' || c == Char.ofNat 39 ||
  c == '´' || c == Char.ofNat 96 || c == '′' || c == '″'

/-- Model of `" ".join(text.split())`: collapse whitespace runs to single
spaces, dropping leading/trailing whitespace. -/
def collapseWs (l : List Char) : List Char :=
  List.intercalate [' '] (splitWsL l)

/-- Model of `clean_quotes`: falsy input is returned unchanged, otherwise
all quote variants are removed, the result stripped and its internal
whitespace collapsed. -/
def clean_quotes (s : String) : String :=
  if s.isEmpty then s
  else ⟨collapseWs (s.data.filter (fun c => !(isQuoteChar c)))⟩

/-- Model of `get_rtype_id`: case-insensitive keyword lookup over the
ordered `CLASSIFICATION_KEYWORDS` table with fallback. -/
def get_rtype_id (title : String) : Int :=
  let tl := pyLower title
  if hasSubS tl "resolución" then 15
  else if hasSubS tl "resolucion" then 15
  else if hasSubS tl "decreto" then 14
  else DEFAULT_RTYPE_ID

/-- Model of `is_valid_created_at` for the string/None values produced by
extraction: `None` and strings that are empty after stripping are
invalid. -/
def is_valid_created_at : Option String → Bool
  | none => false
  | some s => !((pyStripS s).isEmpty)

/-- An `<a>` anchor inside the title cell: its stripped text and its
optional `href` attribute. -/
structure Anchor where
  text : String
  href : Option String
deriving DecidableEq, Repr

/-- The title `<td>` cell: an optional anchor. -/
structure TitleCellM where
  anchor : Option Anchor
deriving DecidableEq, Repr

/-- The `<span class="date-display-single">` element: optional `content`
attribute and stripped visible text. -/
structure FechaSpanM where
  content : Option String
  text : String
deriving DecidableEq, Repr

/-- The date `<td>` cell: optional date span and stripped cell text. -/
structure FechaCellM where
  span : Option FechaSpanM
  text : String
deriving DecidableEq, Repr

/-- One `<tr>` row of the listing table, reduced to the pieces the
extractor reads. -/
structure HtmlRowM where
  titleCell : Option TitleCellM
  summaryText : Option String
  fechaCell : Option FechaCellM
deriving DecidableEq, Repr

/-- Model of `extract_title_and_link`: returns the cleaned title and the
resolved external link on success, `none` when the row is skipped
(missing cell/anchor, overlong title, or no usable link). -/
def extract_title_and_link (row : HtmlRowM) : Option (String × String) :=
  match row.titleCell with
  | none => none
  | some tc =>
    match tc.anchor with
    | none => none
    | some a =>
      let cleaned := clean_quotes a.text
      if cleaned.length > 65 then none
      else
        match a.href with
        | none => none
        | some h =>
          let link := if !h.isEmpty && !(leadsWithS h "http")
            then "https://www.ani.gov.co" ++ h else h
          if link.isEmpty then none else some (cleaned, link)

/-- Model of Python `str.capitalize`: first character uppercased, the rest
lowercased. -/
def pyCapitalize (s : String) : String :=
  match s.data with
  | [] => ""
  | c :: t => ⟨Char.toUpper c :: t.map Char.toLower⟩

/-- Model of `extract_summary`: optional cell, quotes cleaned and first
letter capitalized. -/
def extract_summary (row : HtmlRowM) : Option String :=
  match row.summaryText with
  | none => none
  | some s => some (pyCapitalize (clean_quotes s))

/-- The `created_at` value `extract_creation_date` stores into the record:
machine-readable attribute preferred over visible text, `T`-style values
truncated, `DD/MM/YYYY` values reordered, anything else kept as raw
text. -/
def extract_creation_date_value (row : HtmlRowM) : Option String :=
  match row.fechaCell with
  | none => none
  | some fc =>
    match fc.span with
    | none => some fc.text
    | some sp =>
      let raw := match sp.content with
        | some c => c
        | none => sp.text
      if containsChar raw 'T' then
        some ⟨raw.data.takeWhile (fun c => c ≠ 'T')⟩
      else if containsChar raw '/' then
        match splitOnCharS raw '/' with
        | [d, m, y] => some (y ++ "-" ++ zfill2 m ++ "-" ++ zfill2 d)
        | _ => some raw
      else some raw

/-- Model of `extract_creation_date`: the boolean says whether the row is
kept; the option is the stored `created_at` value. -/
def extract_creation_date (row : HtmlRowM) : Bool × Option String :=
  let v := extract_creation_date_value row
  (is_valid_created_at v, v)

/-- The canonical record dictionary built by `scrape_page` for one row. -/
structure NormaData where
  created_at : Option String
  update_at : String
  is_active : Bool
  title : Option String
  gtype : Option String
  entity : String
  external_link : Option String
  rtype_id : Option Int
  summary : Option String
  classification_id : Int
deriving DecidableEq, Repr

/-- Model of the per-row body of `scrape_page` (`now` is the formatted
`datetime.now()` observation time): `none` when the row is skipped. -/
def process_row (now : String) (row : HtmlRowM) : Option NormaData :=
  match extract_title_and_link row with
  | none => none
  | some (t, l) =>
    let summ := extract_summary row
    match extract_creation_date row with
    | (false, _) => none
    | (true, ca) =>
      some { created_at := ca, update_at := now, is_active := true,
             title := some t, gtype := some "link", entity := ENTITY_VALUE,
             external_link := some l, rtype_id := some (get_rtype_id t),
             summary := summ, classification_id := FIXED_CLASSIFICATION_ID }

/-! ## Change probe (`check_for_new_content`) -/

/-- The per-candidate date parse of `check_for_new_content`: first
`strptime(v, "%Y-%m-%d %H:%M:%S")`, then
`strptime(v.split()[0], "%Y-%m-%d")`; an all-whitespace value raises
`IndexError` inside the inner `try`, i.e. the record is skipped. -/
def probe_parse (s : String) : Option PyDateTime :=
  match strptimeYmdHMS s with
  | some w => some w
  | none =>
    match splitWsL s.data with
    | [] => none
    | t :: _ => strptimeYmd ⟨t⟩

/-- A record as seen by the probe: only its `created_at` entry matters. -/
structure ProbeRecord where
  created_at : Option String
deriving DecidableEq, Repr

/-- Does one scraped record make the probe report new content, given the
normalized latest persisted date? -/
def recordTriggers (latest : Option PyDateTime) (r : ProbeRecord) : Bool :=
  match r.created_at with
  | none => false
  | some v =>
    if v.isEmpty || !(is_valid_created_at (some v)) then false
    else
      match probe_parse v with
      | none => false
      | some w =>
        match latest with
        | none => true
        | some l => pyDTlt l w

/-- Model of `check_for_new_content`.  `fetchLatest` is the outcome of the
`fetch_latest_created_at` accessor (an exception or an optional naive
datetime); `pages` gives the records `scrape_page` returns for each page
index (that function never raises: failures come back as `[]`). -/
def check_for_new_content (fetchLatest : Except String (Option PyDateTime))
    (pages : Nat → List ProbeRecord) (numPages : Nat) : Bool :=
  match fetchLatest with
  | .error _ => true
  | .ok latest =>
    (List.range numPages).any (fun p => (pages p).any (recordTriggers latest))

/-! ## Validation module (`src/validacion.py`, `src/validaciones.py`)

A DataFrame cell holds either `none` (NA) or a `Value`; a row is the
ordered association list of its columns. -/

/-- A Python object sitting in a DataFrame cell. -/
inductive Value where
  | vStr (s : String)
  | vInt (n : Int)
  | vBool (b : Bool)
  | vFloat (mantissa : Int) (exp : Nat)
  | vDateTime (d : PyDateTime)
deriving DecidableEq, Repr

/-- Model of `strftime("%Y-%m-%d %H:%M:%S")`, also `str(datetime)` with zero
microseconds. -/
def fmtYMDHMS (d : PyDateTime) : String :=
  fmtYMD d ++ " " ++ pad2 d.hour ++ ":" ++ pad2 d.minute ++ ":" ++ pad2 d.second

/-- Decimal rendering of the float model `mantissa / 10 ^ exp`. -/
def floatRepr (mantissa : Int) (exp : Nat) : String :=
  let sign : String := if mantissa < 0 then "-" else ""
  let digits := toString mantissa.natAbs
  let padded : List Char :=
    if digits.length ≥ exp + 1 then digits.data
    else List.replicate (exp + 1 - digits.length) '0' ++ digits.data
  sign ++ ⟨padded.take (padded.length - exp)⟩ ++ "." ++ ⟨padded.drop (padded.length - exp)⟩

/-- Model of Python `str(value)` for the cell values above. -/
def pyStr : Value → String
  | .vStr s => s
  | .vInt n => toString n
  | .vBool b => if b then "True" else "False"
  | .vFloat m e => floatRepr m e
  | .vDateTime d => fmtYMDHMS d

/-- Parse an optional decimal sign. -/
def parseSign : List Char → Bool × List Char
  | '-' :: rest => (true, rest)
  | '+' :: rest => (false, rest)
  | l => (false, l)

/-- Parse a non-empty run of digits as a natural number. -/
def parseDigits : List Char → Option (Nat × List Char)
  | [] => none
  | c :: cs =>
    if c.isDigit then
      some ((cs.takeWhile Char.isDigit).foldl (fun a d => 10 * a + dval d) (dval c),
            cs.dropWhile Char.isDigit)
    else none

/-- Model of Python `int(text)` on already-stripped text. -/
def pyInt (s : String) : Option Int :=
  let (neg, rest) := parseSign s.data
  match parseDigits rest with
  | some (n, []) => some (if neg then -(n : Int) else (n : Int))
  | _ => none

/-- Model of Python `float(text)` on already-stripped text, restricted to
plain decimal literals (see the module header note). -/
def pyFloat (s : String) : Option Value :=
  let (neg, rest) := parseSign s.data
  match parseDigits rest with
  | some (n, []) => some (.vFloat (if neg then -(n : Int) else (n : Int)) 0)
  | some (n, '.' :: frac) =>
    if frac ≠ [] && frac.all Char.isDigit then
      let f := frac.foldl (fun a d => 10 * a + dval d) 0
      let m : Int := (n : Int) * (10 : Int) ^ frac.length + (f : Int)
      some (.vFloat (if neg then -m else m) frac.length)
    else none
  | _ => none

/-- The truthy set of the boolean coercion. -/
def truthySet : List String := ["true", "1", "t", "yes", "si", "sí"]

/-- The falsy set of the boolean coercion. -/
def falsySet : List String := ["false", "0", "f", "no"]

/-- The ordered format loop of the date coercion
(`for fmt in ("%Y-%m-%d", "%Y-%m-%d %H:%M:%S")`). -/
def coerceDateParse (s : String) : Option PyDateTime :=
  match strptimeYmd s with
  | some d => some d
  | none => strptimeYmdHMS s

/-- Model of one cell of `_coerce_type`: the coerced value and its
validity-mask bit. -/
def coerce_cell (expected : String) (v : Option Value) : Option Value × Bool :=
  match v with
  | none => (none, false)
  | some val =>
    if expected = "string" then
      let t := pyStripS (pyStr val)
      if t.isEmpty then (none, false) else (some (.vStr t), true)
    else if expected = "integer" then
      let t := pyStripS (pyStr val)
      match pyInt t with
      | some n => (some (.vInt n), true)
      | none => (none, false)
    else if expected = "float" then
      let t := pyStripS (pyStr val)
      match pyFloat t with
      | some f => (some f, true)
      | none => (none, false)
    else if expected = "boolean" then
      match val with
      | .vBool b => (some (.vBool b), true)
      | _ =>
        let t := pyLower (pyStripS (pyStr val))
        if truthySet.contains t then (some (.vBool true), true)
        else if falsySet.contains t then (some (.vBool false), true)
        else (none, false)
    else if expected = "date" then
      match val with
      | .vDateTime d => (some (.vStr (fmtYMD d)), true)
      | _ =>
        let t := pyStripS (pyStr val)
        if t.isEmpty then (none, false)
        else
          match coerceDateParse t with
          | some d => (some (.vStr (fmtYMD d)), true)
          | none => (none, false)
    else (some val, true)

/-- One entry of the ruleset (`rules["fields"][name]`).  The regex is an
abstract matcher `String → Bool`, the model of `re.match(pattern, ·)`. -/
structure FieldRule where
  ftype : Option String := none
  regex : Option (String → Bool) := none
  required : Bool := false
  max_length : Option Nat := none

/-- A DataFrame row: ordered column/cell pairs. -/
abbrev Row : Type := List (String × Option Value)

/-- Read a cell (`NA` for an absent column, matching the synthesized
all-null columns). -/
def rowGet (r : Row) (f : String) : Option Value :=
  match r.find? (fun p => p.1 == f) with
  | some p => p.2
  | none => none

/-- Write a cell, appending the column if it is new (pandas column
assignment). -/
def rowSet (r : Row) (f : String) (v : Option Value) : Row :=
  if r.any (fun p => p.1 == f) then
    r.map (fun p => if p.1 == f then (p.1, v) else p)
  else r ++ [(f, v)]

/-- A DataFrame: its column list and its rows. -/
structure DFrame where
  cols : List String
  rows : List Row

/-- The chained per-cell processing of one field: type coercion, then
regex nulling, then max-length nulling; the boolean is the final
validity-mask bit (`mask_valid`). -/
def cellPipeline (config : FieldRule) (cell : Option Value) : Option Value × Bool :=
  let step1 := match config.ftype with
    | some t => coerce_cell t cell
    | none => (cell, true)
  let step2 := match config.regex with
    | some rx =>
      let b := rx (match step1.1 with | some v => pyStr v | none => "")
      ((if b then step1.1 else none), step1.2 && b)
    | none => step1
  match config.max_length with
  | some ml =>
    let len := (match step2.1 with | some v => pyStr v | none => "").length
    let b := len ≤ ml
    ((if b then step2.1 else none), step2.2 && b)
  | none => step2

/-- State of the field loop of `apply_validation`: the frame being
rewritten, the `invalid_cells` statistics, and the collected required
fields. -/
abbrev VState : Type := DFrame × List (String × Nat) × List String

/-- One iteration of `for field, config in rules_fields.items()`. -/
def applyStep (acc : VState) (fr : String × FieldRule) : VState :=
  let dfc := acc.1
  let inv := acc.2.1
  let req := acc.2.2
  let field := fr.1
  let config := fr.2
  let req2 := if config.required then req ++ [field] else req
  if field ∈ dfc.cols then
    let count := dfc.rows.countP (fun r => !(cellPipeline config (rowGet r field)).2)
    ({ cols := dfc.cols,
       rows := dfc.rows.map (fun r => rowSet r field (cellPipeline config (rowGet r field)).1) },
     (if count ≠ 0 then inv ++ [(field, count)] else inv), req2)
  else
    ({ cols := dfc.cols ++ [field],
       rows := dfc.rows.map (fun r => rowSet r field none) },
     inv ++ [(field, dfc.rows.length)], req2)

/-- The full field loop. -/
def validationFold (df : DFrame) (rules : List (String × FieldRule)) : VState :=
  rules.foldl applyStep (df, [], [])

/-- The frame after per-field processing, before the required-field
drop. -/
def processedFrame (df : DFrame) (rules : List (String × FieldRule)) : DFrame :=
  (validationFold df rules).1

/-- Validation statistics. -/
structure VStats where
  rows_received : Nat
  rows_discarded : Nat
  rows_valid : Nat
  invalid_cells : List (String × Nat)
deriving DecidableEq, Repr

/-- Model of `apply_validation`. -/
def apply_validation (df : DFrame) (rules : List (String × FieldRule)) :
    DFrame × VStats :=
  if df.rows.isEmpty then
    (df, { rows_received := 0, rows_discarded := 0, rows_valid := 0, invalid_cells := [] })
  else
    let st := validationFold df rules
    let dfc := st.1
    let inv := st.2.1
    let req := st.2.2
    let rows2 := if req.isEmpty then dfc.rows
      else dfc.rows.filter (fun r => req.all (fun f => (rowGet r f).isSome))
    ({ cols := dfc.cols, rows := rows2 },
     { rows_received := df.rows.length,
       rows_discarded := dfc.rows.length - rows2.length,
       rows_valid := rows2.length,
       invalid_cells := inv })

/-! ### The built-in ruleset (`DEFAULT_RULES` of `src/validaciones.py`)

Each regex of the ruleset is a fixed pattern; its `re.match` semantics is
modelled by a dedicated boolean function. -/

/-- Model of `re.match(".+", s)`: at least one character, and `.` does not match a
newline. -/
def regexDotPlus (s : String) : Bool :=
  match s.data with
  | [] => false
  | c :: _ => c ≠ '\n'

/-- Model of `re.match("^\d{4}-\d{2}-\d{2}", s)`. -/
def regexDateStart (s : String) : Bool :=
  match s.data with
  | a :: b :: c :: d :: '-' :: e :: f :: '-' :: g :: h :: _ =>
    a.isDigit && b.isDigit && c.isDigit && d.isDigit &&
    e.isDigit && f.isDigit && g.isDigit && h.isDigit
  | _ => false

/-- Model of `re.match("^https?://.+", s)`. -/
def regexUrl (s : String) : Bool :=
  match s.data with
  | 'h' :: 't' :: 't' :: 'p' :: 's' :: ':' :: '/' :: '/' :: c :: _ => c ≠ '\n'
  | 'h' :: 't' :: 't' :: 'p' :: ':' :: '/' :: '/' :: c :: _ => c ≠ '\n'
  | _ => false

/-- Does the character list match `\d{4}-\d{2}-\d{2} \d{2}:\d{2}:\d{2}`
exactly? -/
def tsShape (l : List Char) : Bool :=
  match l with
  | [a, b, c, d, '-', e, f, '-', g, h, ' ', i, j, ':', k, m, ':', n, o] =>
    a.isDigit && b.isDigit && c.isDigit && d.isDigit && e.isDigit && f.isDigit &&
    g.isDigit && h.isDigit && i.isDigit && j.isDigit && k.isDigit && m.isDigit &&
    n.isDigit && o.isDigit
  | _ => false

/-- Model of `re.match("^\d{4}-\d{2}-\d{2} \d{2}:\d{2}:\d{2}$", s)`: `$` also
matches just before one trailing newline. -/
def regexTimestamp (s : String) : Bool :=
  tsShape s.data || (match s.data.getLast? with
    | some '\n' => tsShape (s.data.dropLast)
    | _ => false)

/-- The built-in ruleset, in the insertion order of `DEFAULT_RULES`. -/
def defaultRules : List (String × FieldRule) :=
  [("title", { ftype := some "string", regex := some regexDotPlus,
               required := true, max_length := some 65 }),
   ("created_at", { ftype := some "date", regex := some regexDateStart,
                    required := true }),
   ("external_link", { ftype := some "string", regex := some regexUrl,
                       required := true }),
   ("summary", { ftype := some "string", required := false }),
   ("rtype_id", { ftype := some "integer", required := true }),
   ("classification_id", { ftype := some "integer", required := true }),
   ("is_active", { ftype := some "boolean", required := true }),
   ("update_at", { ftype := some "string", regex := some regexTimestamp,
                   required := true })]

/-! ## Writer module (`src/escritura.py`)

The persisted table and the incoming frame are modelled with exactly the
columns the dedup logic touches (the identity-key fields plus the entity
discriminator); database effects (`bulk_insert`, the id query, the
component insert) are passed in as parameters. -/

/-- One persisted row of the regulations table (before the query's
projection: the link may be NULL). -/
structure StoredRecord where
  title : String
  created_at : String
  entity : String
  external_link : Option String
deriving DecidableEq, Repr

/-- One incoming validated record, projected to the fields the writer's
duplicate logic uses. -/
structure InRecord where
  title : String
  created_at : String
  external_link : Option String
  entity : String
deriving DecidableEq, Repr

/-- An incoming record after the writer's in-place normalization
(`astype(str)`, `fillna("")`, `str.strip()` on the title). -/
structure NormRecord where
  title : String
  created_at : String
  external_link : String
  entity : String
deriving DecidableEq, Repr

/-- The writer's normalization of an incoming record. -/
def normIn (r : InRecord) : NormRecord :=
  { title := pyStripS r.title, created_at := r.created_at,
    external_link := (r.external_link).getD "", entity := r.entity }

/-- The `SELECT title, created_at::text, entity, COALESCE(external_link, '')
... WHERE entity = %s` query followed by the writer's normalization of
`db_df`. -/
def dbProj (table : List StoredRecord) (entity : String) : List NormRecord :=
  (table.filter (fun r => r.entity == entity)).map (fun r =>
    { title := pyStripS r.title, created_at := r.created_at,
      external_link := r.external_link.getD "", entity := r.entity })

/-- Model of `entity_df`: the incoming frame filtered to the entity, then
normalized. -/
def entityBatch (df : List InRecord) (entity : String) : List NormRecord :=
  (df.filter (fun r => r.entity == entity)).map normIn

/-- The `unique_key` column: `title + "|" + created_at + "|" +
external_link`. -/
def nkey (r : NormRecord) : String :=
  r.title ++ "|" ++ r.created_at ++ "|" ++ r.external_link

/-- Equality on the `["title", "created_at", "external_link"]` subset used
by `drop_duplicates`. -/
def sameKey3 (a b : NormRecord) : Bool :=
  a.title == b.title && a.created_at == b.created_at &&
  a.external_link == b.external_link

/-- Model of `entity_df[~entity_df["is_duplicate"]]`: the incoming records whose
joined key is not among the persisted keys (skipped entirely when the
persisted frame is empty). -/
def preDedup (table : List StoredRecord) (df : List InRecord) (entity : String) :
    List NormRecord :=
  let db := dbProj table entity
  let e := entityBatch df entity
  if db.isEmpty then e
  else e.filter (fun r => !((db.map nkey).contains (nkey r)))

/-- Model of `drop_duplicates(subset=[...], keep="first")`: `seen` holds
the rows already emitted. -/
def dropDupAux : List NormRecord → List NormRecord → List NormRecord
  | [], _ => []
  | r :: rs, seen =>
    if seen.any (fun s => sameKey3 s r) then dropDupAux rs seen
    else r :: dropDupAux rs (r :: seen)

/-- The list of records the writer hands to `bulk_insert` (empty when an
early return fires first). -/
def newRecordsFor (table : List StoredRecord) (df : List InRecord) (entity : String) :
    List NormRecord :=
  if (entityBatch df entity).isEmpty then []
  else dropDupAux (preDedup table df entity) []

/-- Model of `duplicates_found = len(entity_df) - len(new_records)` (before the
intra-batch dedup), an `int`; zero in the empty-persisted-frame branch. -/
def duplicates_found_of (table : List StoredRecord) (df : List InRecord)
    (entity : String) : Int :=
  if (dbProj table entity).isEmpty then 0
  else ((entityBatch df entity).length : Int) - ((preDedup table df entity).length : Int)

/-- Model of `internal_duplicates = len(entity_df) - duplicates_found -
len(new_records)` (after the intra-batch dedup), an `int`. -/
def internal_duplicates_of (table : List StoredRecord) (df : List InRecord)
    (entity : String) : Int :=
  ((entityBatch df entity).length : Int) - duplicates_found_of table df entity -
    ((newRecordsFor table df entity).length : Int)

/-- Model of `insert_regulations_component`: it never raises — a failing
component bulk insert comes back as a zero count with an error message. -/
def insert_regulations_component (componentInsert : List Int → Except String Nat)
    (new_ids : List Int) : Nat × String :=
  if new_ids.isEmpty then (0, "No new regulation IDs provided")
  else
    match componentInsert new_ids with
    | .ok k => (k, "Successfully inserted " ++ toString k ++ " regulation components")
    | .error e => (0, "Error inserting regulation components: " ++ e)

/-- Model of `insert_new_records`.  `bulkInsert` is the outcome of
`DatabaseManager.bulk_insert` on the new records (`.error` carries
`str(insert_error)`); `fetchNewIds` models the most-recent-N id query;
`componentInsert` the component-table bulk insert.  The function never
raises: the outer `except` turns any propagated error into a
`(0, "Error processing entity ...")` result. -/
def insert_new_records (table : List StoredRecord) (df : List InRecord)
    (entity : String) (bulkInsert : List NormRecord → Except String Nat)
    (fetchNewIds : Nat → List Int)
    (componentInsert : List Int → Except String Nat) : Nat × String :=
  let db := dbProj table entity
  let e := entityBatch df entity
  if e.isEmpty then (0, "No records found for entity " ++ entity)
  else
    let new_records := newRecordsFor table df entity
    if new_records.isEmpty then
      (0, "No new records found for entity " ++ entity ++ " after duplicate validation")
    else
      match bulkInsert new_records with
      | .error err =>
        if hasSubS (pyLower err) "duplicate" || hasSubS (pyLower err) "unique" then
          (0, "Some records for entity " ++ entity ++ " were duplicates and skipped")
        else
          (0, "Error processing entity " ++ entity ++ ": " ++ err)
      | .ok n =>
        if n = 0 then (0, "No records were actually inserted for entity " ++ entity)
        else
          let new_ids := fetchNewIds n
          let component_message :=
            if new_ids.isEmpty then ""
            else (insert_regulations_component componentInsert new_ids).2
          let total_duplicates :=
            duplicates_found_of table df entity + internal_duplicates_of table df entity
          let stats := "Processed: " ++ toString e.length ++
            " | Existing: " ++ toString db.length ++
            " | Duplicates skipped: " ++ toString total_duplicates ++
            " | New inserted: " ++ toString n
          (n, "Entity " ++ entity ++ ": " ++ stats ++ ". " ++ component_message)

/-- How a successfully inserted record lands in the persisted table (the
store keeps the inserted strings; an empty link is stored as the empty
string and read back unchanged by the `COALESCE`). -/
def toStored (r : NormRecord) : StoredRecord :=
  { title := r.title, created_at := r.created_at, entity := r.entity,
    external_link := some r.external_link }

/-! ## The synchronous invocation wrapper (`lambda.py`) -/

/-- The structured outcome of `lambda_handler`, reduced to the fields the
claims talk about (`statusCode`, `message`, `success`). -/
structure LambdaResponse where
  statusCode : Nat
  message : String
  success : Bool
deriving DecidableEq, Repr

/-- Model of the write stage of `lambda_handler` (lines 87–113):
`connect` is the outcome of entering `DatabaseManager()`; when the stages
run, `insert_new_records` returns normally and the handler builds a
200/`success: true` body around its message; an exception escaping a stage
produces the 500/`success: false` body. -/
def lambda_write_stage (connect : Except String Unit) (table : List StoredRecord)
    (df : List InRecord) (entity : String)
    (bulkInsert : List NormRecord → Except String Nat)
    (fetchNewIds : Nat → List Int)
    (componentInsert : List Int → Except String Nat) : LambdaResponse :=
  match connect with
  | .error exc =>
    { statusCode := 500,
      message := "Error en la ejecución del proceso: " ++ exc,
      success := false }
  | .ok _ =>
    let r := insert_new_records table df entity bulkInsert fetchNewIds componentInsert
    { statusCode := 200, message := r.2, success := true }

/-! ## Claim-side definitions

These two definitions are written from the words of the specification and
of its claims, to be compared with the writer's behaviour. -/

/-- The identity key of the specification: the tuple
(trimmed title, string-form `created_at`, `external_link` or `""`). -/
def claimKeyIn (r : InRecord) : String × String × String :=
  (pyStripS r.title, r.created_at, (r.external_link).getD "")

/-- The identity key of a persisted record, per the specification. -/
def claimKeyStored (r : StoredRecord) : String × String × String :=
  (pyStripS r.title, r.created_at, (r.external_link).getD "")

/-- Helper for `claimTupleNewRecords`: keep a record iff its tuple key is
not among the persisted tuple keys and no earlier batch record has the
same tuple key. -/
def claimTupleAux (dbKeys : List (String × String × String)) :
    List InRecord → List (String × String × String) → List InRecord
  | [], _ => []
  | r :: rs, prev =>
    if !(dbKeys.contains (claimKeyIn r)) && !(prev.contains (claimKeyIn r)) then
      r :: claimTupleAux dbKeys rs (claimKeyIn r :: prev)
    else claimTupleAux dbKeys rs (claimKeyIn r :: prev)

/-- The set of records claim C1 says the writer inserts: those of the
entity's batch whose identity key (tuple form) is not present among the
persisted records' keys and which are the first occurrence of that key
within the batch. -/
def claimTupleNewRecords (table : List StoredRecord) (df : List InRecord)
    (entity : String) : List InRecord :=
  claimTupleAux ((table.filter (fun r => r.entity == entity)).map claimKeyStored)
    (df.filter (fun r => r.entity == entity)) []

/-- Helper for `amendedNewRecords`: keep a record iff its joined string
key is not among the persisted joined keys and no earlier batch record has
the same field triple. -/
def amendedNewAux (ks : List String) : List NormRecord → List NormRecord → List NormRecord
  | [], _ => []
  | r :: rs, prev =>
    if !(ks.contains (nkey r)) && !(prev.any (fun s => sameKey3 s r)) then
      r :: amendedNewAux ks rs (r :: prev)
    else amendedNewAux ks rs (r :: prev)

/-- The amended description of the writer's output: a normalized batch
record is inserted iff its `"|"`-joined string key is absent from the
persisted records' joined keys and it is the first occurrence of its
(title, created_at, external_link) triple within the batch. -/
def amendedNewRecords (table : List StoredRecord) (df : List InRecord)
    (entity : String) : List NormRecord :=
  amendedNewAux ((dbProj table entity).map nkey) (entityBatch df entity) []

/-! ## Helper lemmas: stripping and whitespace splitting -/

lemma head_dropWhile_false {α : Type} (p : α → Bool) :
    ∀ (l : List α) (c : α) (t : List α), l.dropWhile p = c :: t → p c = false := by
  intro l
  induction l with
  | nil => intro c t h; simp [List.dropWhile] at h
  | cons a as ih =>
    intro c t h
    rw [List.dropWhile_cons] at h
    by_cases hp : p a
    · rw [if_pos hp] at h; exact ih c t h
    · rw [if_neg hp] at h
      injection h with h1 h2
      subst h1
      simp only [Bool.not_eq_true] at hp
      exact hp

lemma dropWhile_eq_self_of {α : Type} (p : α → Bool) (l : List α)
    (h : ∀ c ∈ l, p c = false) : l.dropWhile p = l := by
  cases l with
  | nil => rfl
  | cons a as =>
    rw [List.dropWhile_cons, if_neg]
    simp [h a (List.mem_cons_self a as)]

lemma dropWhile_idem {α : Type} (p : α → Bool) (l : List α) :
    (l.dropWhile p).dropWhile p = l.dropWhile p := by
  cases h : l.dropWhile p with
  | nil => rfl
  | cons c t =>
    rw [List.dropWhile_cons, if_neg]
    simp [head_dropWhile_false p l c t h]

lemma pyStripL_of_no_ws (l : List Char) (h : ∀ c ∈ l, c.isWhitespace = false) :
    pyStripL l = l := by
  unfold pyStripL
  rw [dropWhile_eq_self_of _ l h,
      dropWhile_eq_self_of _ l.reverse (fun c hc => h c (List.mem_reverse.mp hc)),
      List.reverse_reverse]

lemma pyStripL_head_ws (l : List Char) (c2 : Char) (t2 : List Char)
    (h : pyStripL l = c2 :: t2) : c2.isWhitespace = false := by
  have hd2 : (l.dropWhile Char.isWhitespace).reverse.dropWhile Char.isWhitespace
      = (c2 :: t2).reverse := by
    rw [← h]
    unfold pyStripL
    rw [List.reverse_reverse]
  have hne : (l.dropWhile Char.isWhitespace).reverse.dropWhile Char.isWhitespace ≠ [] := by
    rw [hd2]; simp
  obtain ⟨pre, hpre⟩ :
      (l.dropWhile Char.isWhitespace).reverse.dropWhile Char.isWhitespace <:+
        (l.dropWhile Char.isWhitespace).reverse :=
    List.dropWhile_suffix _
  have hlast :
      ((l.dropWhile Char.isWhitespace).reverse.dropWhile Char.isWhitespace).getLast?
        = (l.dropWhile Char.isWhitespace).reverse.getLast? := by
    conv_rhs => rw [← hpre]
    exact (List.getLast?_append_of_ne_nil pre hne).symm
  have hd1ne : l.dropWhile Char.isWhitespace ≠ [] := by
    intro hnil
    rw [hnil] at hd2
    simp at hd2
  obtain ⟨a, as, ha⟩ := List.exists_cons_of_ne_nil hd1ne
  have haw : a.isWhitespace = false := head_dropWhile_false _ l a as ha
  have hc2a : c2 = a := by
    have h1 : ((c2 :: t2).reverse : List Char).getLast? = some a := by
      rw [← hd2, hlast, List.getLast?_reverse, ha]
      rfl
    rw [List.getLast?_reverse] at h1
    simp at h1
    exact h1
  rw [hc2a]
  exact haw

lemma pyStripL_idem (l : List Char) : pyStripL (pyStripL l) = pyStripL l := by
  cases h : pyStripL l with
  | nil => simp [pyStripL, h]
  | cons c2 t2 =>
    have hw2 : c2.isWhitespace = false := pyStripL_head_ws l c2 t2 h
    have hfront : (c2 :: t2).dropWhile Char.isWhitespace = c2 :: t2 := by
      rw [List.dropWhile_cons, if_neg]
      simp [hw2]
    have hback : ((c2 :: t2) : List Char).reverse.dropWhile Char.isWhitespace
        = (c2 :: t2).reverse := by
      have hd2 : (l.dropWhile Char.isWhitespace).reverse.dropWhile Char.isWhitespace
          = (c2 :: t2).reverse := by
        rw [← h]
        unfold pyStripL
        rw [List.reverse_reverse]
      rw [← hd2]
      exact dropWhile_idem _ _
    show pyStripL (c2 :: t2) = c2 :: t2
    unfold pyStripL
    rw [hfront, hback, List.reverse_reverse]

lemma pyStripS_idem (s : String) : pyStripS (pyStripS s) = pyStripS s := by
  unfold pyStripS
  exact congrArg String.mk (pyStripL_idem s.data)

lemma pyStripL_ne_nil (l : List Char) (c : Char) (hc : c ∈ l)
    (hw : c.isWhitespace = false) : pyStripL l ≠ [] := by
  unfold pyStripL
  intro h
  rw [List.reverse_eq_nil_iff, List.dropWhile_eq_nil_iff] at h
  have hd1 : l.dropWhile Char.isWhitespace ≠ [] := by
    rw [Ne, List.dropWhile_eq_nil_iff]
    intro hall
    rw [hall c hc] at hw
    exact absurd hw (by simp)
  obtain ⟨a, as, ha⟩ := List.exists_cons_of_ne_nil hd1
  have haw : a.isWhitespace = false := head_dropWhile_false _ l a as ha
  have hmem : a ∈ (l.dropWhile Char.isWhitespace).reverse := by
    rw [List.mem_reverse, ha]
    exact List.mem_cons_self a as
  rw [h a hmem] at haw
  exact absurd haw (by simp)

lemma splitWsAux_all_ws (l : List Char) (h : ∀ c ∈ l, c.isWhitespace = true) :
    ∀ acc, splitWsAux l acc = if acc.isEmpty then [] else [acc.reverse] := by
  induction l with
  | nil => intro acc; rfl
  | cons c cs ih =>
    intro acc
    have hc : c.isWhitespace = true := h c (List.mem_cons_self c cs)
    have hrest : ∀ x ∈ cs, x.isWhitespace = true :=
      fun x hx => h x (List.mem_cons_of_mem c hx)
    have hnil : splitWsAux cs [] = [] := by rw [ih hrest []]; rfl
    unfold splitWsAux
    rw [if_pos hc]
    by_cases ha : acc.isEmpty
    · rw [if_pos ha, hnil, if_pos ha]
    · rw [if_neg ha, hnil, if_neg ha]

lemma splitWsAux_token (m : List Char) (hm : ∀ c ∈ m, c.isWhitespace = false) :
    ∀ (t2 : List Char), (∀ c ∈ t2, c.isWhitespace = true) →
    ∀ acc, splitWsAux (m ++ t2) acc =
      if (acc.reverse ++ m).isEmpty then [] else [acc.reverse ++ m] := by
  induction m with
  | nil =>
    intro t2 ht acc
    rw [List.nil_append, splitWsAux_all_ws t2 ht acc]
    cases acc <;> simp
  | cons c m2 ih =>
    intro t2 ht acc
    have hc : c.isWhitespace = false := hm c (List.mem_cons_self c m2)
    have hm2 : ∀ x ∈ m2, x.isWhitespace = false :=
      fun x hx => hm x (List.mem_cons_of_mem c hx)
    show splitWsAux (c :: (m2 ++ t2)) acc = _
    unfold splitWsAux
    rw [if_neg (by simp [hc])]
    rw [ih hm2 t2 ht (c :: acc)]
    have hre : ((c :: acc).reverse : List Char) ++ m2 = acc.reverse ++ (c :: m2) := by
      simp
    rw [hre]

lemma splitWsAux_skip (t1 : List Char) (h : ∀ c ∈ t1, c.isWhitespace = true) :
    ∀ rest, splitWsAux (t1 ++ rest) [] = splitWsAux rest [] := by
  induction t1 with
  | nil => intro rest; rfl
  | cons c cs ih =>
    intro rest
    have hc : c.isWhitespace = true := h c (List.mem_cons_self c cs)
    have step : splitWsAux ((c :: cs) ++ rest) [] = splitWsAux (cs ++ rest) [] := by
      simp [splitWsAux, hc]
    rw [step]
    exact ih (fun x hx => h x (List.mem_cons_of_mem c hx)) rest

lemma mem_takeWhile_true {α : Type} (p : α → Bool) :
    ∀ (l : List α), ∀ c ∈ l.takeWhile p, p c = true := by
  intro l
  induction l with
  | nil => intro c hc; simp [List.takeWhile] at hc
  | cons a as ih =>
    intro c hc
    rw [List.takeWhile_cons] at hc
    by_cases hp : p a
    · rw [if_pos hp] at hc
      rcases List.mem_cons.mp hc with h1 | h2
      · rw [h1]; exact hp
      · exact ih c h2
    · rw [if_neg hp] at hc; simp at hc

/-- Decomposition: every character list is leading whitespace, its
stripped core, then trailing whitespace. -/
lemma strip_decomp (l : List Char) :
    ∃ t1 t2, l = t1 ++ pyStripL l ++ t2 ∧
      (∀ c ∈ t1, c.isWhitespace = true) ∧ (∀ c ∈ t2, c.isWhitespace = true) := by
  refine ⟨l.takeWhile Char.isWhitespace,
    ((l.dropWhile Char.isWhitespace).reverse.takeWhile Char.isWhitespace).reverse,
    ?_, mem_takeWhile_true _ l, ?_⟩
  · have h1 : l = l.takeWhile Char.isWhitespace ++ l.dropWhile Char.isWhitespace :=
      (List.takeWhile_append_dropWhile _ _).symm
    have h2 : (l.dropWhile Char.isWhitespace).reverse =
        (l.dropWhile Char.isWhitespace).reverse.takeWhile Char.isWhitespace ++
          (l.dropWhile Char.isWhitespace).reverse.dropWhile Char.isWhitespace :=
      (List.takeWhile_append_dropWhile _ _).symm
    have h3 : l.dropWhile Char.isWhitespace = pyStripL l ++
        ((l.dropWhile Char.isWhitespace).reverse.takeWhile Char.isWhitespace).reverse := by
      have h4 := congrArg List.reverse h2
      rw [List.reverse_reverse, List.reverse_append] at h4
      exact h4
    conv_lhs => rw [h1, h3]
    rw [List.append_assoc]
  · intro c hc
    rw [List.mem_reverse] at hc
    exact mem_takeWhile_true _ _ c hc

/-- Splitting (`str.split()`) a list whose stripped core has no internal
whitespace: the singleton of the core (or nothing when blank). -/
lemma splitWs_eq_strip (l : List Char)
    (h : ∀ c ∈ pyStripL l, c.isWhitespace = false) :
    splitWsL l = if (pyStripL l).isEmpty then [] else [pyStripL l] := by
  obtain ⟨t1, t2, hdec, h1, h2⟩ := strip_decomp l
  unfold splitWsL
  conv_lhs => rw [hdec]
  rw [List.append_assoc, splitWsAux_skip t1 h1, splitWsAux_token _ h t2 h2 []]
  simp

lemma splitWsAux_mem_sub :
    ∀ (l acc t : List Char), t ∈ splitWsAux l acc → ∀ c ∈ t, c ∈ l ∨ c ∈ acc := by
  intro l
  induction l with
  | nil =>
    intro acc t ht c hc
    unfold splitWsAux at ht
    by_cases ha : acc.isEmpty
    · rw [if_pos ha] at ht; simp at ht
    · rw [if_neg ha] at ht
      simp only [List.mem_singleton] at ht
      right
      rw [← List.mem_reverse, ← ht]
      exact hc
  | cons a as ih =>
    intro acc t ht c hc
    unfold splitWsAux at ht
    by_cases hw : a.isWhitespace
    · rw [if_pos hw] at ht
      by_cases ha : acc.isEmpty
      · rw [if_pos ha] at ht
        rcases ih [] t ht c hc with h1 | h2
        · exact Or.inl (List.mem_cons_of_mem a h1)
        · simp at h2
      · rw [if_neg ha] at ht
        rcases List.mem_cons.mp ht with h1 | h2
        · right; rw [← List.mem_reverse, ← h1]; exact hc
        · rcases ih [] t h2 c hc with h3 | h4
          · exact Or.inl (List.mem_cons_of_mem a h3)
          · simp at h4
    · rw [if_neg hw] at ht
      rcases ih (a :: acc) t ht c hc with h1 | h2
      · exact Or.inl (List.mem_cons_of_mem a h1)
      · rcases List.mem_cons.mp h2 with h3 | h4
        · exact Or.inl (h3 ▸ List.mem_cons_self a as)
        · exact Or.inr h4

/-! ## Helper lemmas: the `strptime` models -/

lemma parseYear_split (cs : List Char) (y : Nat) (rest : List Char)
    (h : parseYear cs = some (y, rest)) :
    ∃ pre, cs = pre ++ rest ∧ pre ≠ [] ∧ ∀ c ∈ pre, c.isDigit = true := by
  match cs, h with
  | a :: b :: c :: d :: r, h =>
    simp only [parseYear] at h
    by_cases hd : a.isDigit && b.isDigit && c.isDigit && d.isDigit
    · rw [if_pos hd] at h
      injection h with h1
      injection h1 with h2 h3
      simp only [Bool.and_eq_true] at hd
      refine ⟨[a, b, c, d], by simp [h3], by simp, ?_⟩
      intro x hx
      simp only [List.mem_cons, List.not_mem_nil, or_false] at hx
      rcases hx with h5 | h5 | h5 | h5 <;> rw [h5]
      · exact hd.1.1.1
      · exact hd.1.1.2
      · exact hd.1.2
      · exact hd.2
    · rw [if_neg hd] at h; cases h

lemma numAlts_split (ok2 ok1 : Nat → Bool) (cs : List Char) (n : Nat) (rest : List Char)
    (h : (n, rest) ∈ numAlts ok2 ok1 cs) :
    ∃ pre, cs = pre ++ rest ∧ pre ≠ [] ∧ ∀ c ∈ pre, c.isDigit = true := by
  match cs with
  | c1 :: c2 :: r =>
    simp only [numAlts] at h
    rw [List.mem_append] at h
    rcases h with h | h
    · by_cases h2 : c1.isDigit && c2.isDigit && ok2 (10 * dval c1 + dval c2)
      · rw [if_pos h2] at h
        simp only [List.mem_singleton, Prod.mk.injEq] at h
        simp only [Bool.and_eq_true] at h2
        refine ⟨[c1, c2], by simp [h.2], by simp, ?_⟩
        intro x hx
        simp only [List.mem_cons, List.not_mem_nil, or_false] at hx
        rcases hx with h5 | h5 <;> rw [h5]
        · exact h2.1.1
        · exact h2.1.2
      · rw [if_neg h2] at h; cases h
    · by_cases h1 : c1.isDigit && ok1 (dval c1)
      · rw [if_pos h1] at h
        simp only [List.mem_singleton, Prod.mk.injEq] at h
        simp only [Bool.and_eq_true] at h1
        refine ⟨[c1], by simp [h.2], by simp, ?_⟩
        intro x hx
        simp only [List.mem_cons, List.not_mem_nil, or_false] at hx
        rw [hx]
        exact h1.1
      · rw [if_neg h1] at h; cases h
  | [c1] =>
    simp only [numAlts] at h
    by_cases h1 : c1.isDigit && ok1 (dval c1)
    · rw [if_pos h1] at h
      simp only [List.mem_singleton, Prod.mk.injEq] at h
      simp only [Bool.and_eq_true] at h1
      refine ⟨[c1], by simp [h.2], by simp, ?_⟩
      intro x hx
      simp only [List.mem_cons, List.not_mem_nil, or_false] at hx
      rw [hx]
      exact h1.1
    · rw [if_neg h1] at h; cases h
  | [] => cases h

lemma tryAlts_split {α : Type} (alts : List (Nat × List Char))
    (k : Nat → List Char → Option α) (a : α) (h : tryAlts alts k = some a) :
    ∃ x ∈ alts, k x.1 x.2 = some a := by
  induction alts with
  | nil => cases h
  | cons hd tl ih =>
    unfold tryAlts at h
    cases hk : k hd.1 hd.2 with
    | some r =>
      rw [hk] at h
      injection h with h1
      exact ⟨hd, List.mem_cons_self hd tl, by rw [hk, h1]⟩
    | none =>
      rw [hk] at h
      obtain ⟨x, hx, hkx⟩ := ih h
      exact ⟨x, List.mem_cons_of_mem hd hx, hkx⟩

lemma parseYMDcore_split {α : Type} (cs : List Char)
    (k : Nat → Nat → Nat → List Char → Option α) (a : α)
    (h : parseYMDcore cs k = some a) :
    ∃ y m d pre rest, cs = pre ++ rest ∧ pre ≠ [] ∧
      (∀ c ∈ pre, c.isDigit = true ∨ c = '-') ∧ k y m d rest = some a := by
  unfold parseYMDcore at h
  split at h
  · cases h
  · rename_i y rest hy
    split at h
    · rename_i r2
      obtain ⟨preY, hcsY, hneY, hdigY⟩ := parseYear_split cs y _ hy
      obtain ⟨x, hmem, hk3⟩ := tryAlts_split _ _ a h
      obtain ⟨m, r3⟩ := x
      simp only at hk3
      obtain ⟨preM, hr2M, hneM, hdigM⟩ := numAlts_split _ _ r2 m r3 hmem
      split at hk3
      · rename_i r4
        obtain ⟨x2, hmem2, hk5⟩ := tryAlts_split _ _ a hk3
        obtain ⟨d, r5⟩ := x2
        simp only at hk5
        obtain ⟨preD, hr4D, hneD, hdigD⟩ := numAlts_split _ _ r4 d r5 hmem2
        refine ⟨y, m, d, preY ++ '-' :: (preM ++ '-' :: preD), r5, ?_, by simp, ?_, hk5⟩
        · rw [hcsY, hr2M, hr4D]
          simp
        · intro c hc
          rw [List.mem_append] at hc
          rcases hc with hc | hc
          · exact Or.inl (hdigY c hc)
          · rcases List.mem_cons.mp hc with hc | hc
            · exact Or.inr hc
            · rw [List.mem_append] at hc
              rcases hc with hc | hc
              · exact Or.inl (hdigM c hc)
              · rcases List.mem_cons.mp hc with hc | hc
                · exact Or.inr hc
                · exact Or.inl (hdigD c hc)
      · cases hk3
    · cases h


lemma strptimeYmd_chars (s : String) (dt : PyDateTime)
    (h : strptimeYmd s = some dt) :
    s.data ≠ [] ∧ ∀ c ∈ s.data, c.isDigit = true ∨ c = '-' := by
  unfold strptimeYmd at h
  obtain ⟨y, m, d, pre, rest, hsplit, hne, hchars, hk⟩ := parseYMDcore_split _ _ _ h
  by_cases hr : rest.isEmpty
  · have hrest : rest = [] := by
      cases rest with
      | nil => rfl
      | cons a t => simp at hr
    rw [hrest, List.append_nil] at hsplit
    constructor
    · rw [hsplit]; exact hne
    · rw [hsplit]; exact hchars
  · rw [if_neg hr] at hk; cases hk

lemma strptimeYmdHMS_has_ws (s : String) (dt : PyDateTime)
    (h : strptimeYmdHMS s = some dt) :
    ∃ c ∈ s.data, c.isWhitespace = true := by
  unfold strptimeYmdHMS at h
  obtain ⟨y, m, d, pre, rest, hsplit, hne, hchars, hk⟩ := parseYMDcore_split _ _ _ h
  simp only at hk
  by_cases hw : (rest.takeWhile Char.isWhitespace).isEmpty
  · rw [if_pos hw] at hk; cases hk
  · cases hrest : rest with
    | nil => rw [hrest] at hw; simp at hw
    | cons c t =>
      rw [hrest, List.takeWhile_cons] at hw
      by_cases hcw : c.isWhitespace
      · exact ⟨c, by rw [hsplit, hrest]; simp, hcw⟩
      · rw [if_neg hcw] at hw; simp at hw

lemma digit_not_ws (c : Char) (h : c.isDigit = true) : c.isWhitespace = false := by
  revert h
  unfold Char.isDigit Char.isWhitespace
  intro h
  simp only [Bool.and_eq_true, decide_eq_true_eq] at h
  have h1 : 48 ≤ c.toNat := h.1
  by_cases hsp : c = ' '
  · rw [hsp] at h1; simp at h1
  · by_cases htb : c = '\t'
    · rw [htb] at h1; simp at h1
    · by_cases hcr : c = '\r'
      · rw [hcr] at h1; simp at h1
      · by_cases hlf : c = '\n'
        · rw [hlf] at h1; simp at h1
        · simp [hsp, htb, hcr, hlf]

lemma hyphen_not_ws : ('-' : Char).isWhitespace = false := by decide

/-- The two `strptime` formats accept disjoint sets of strings. -/
lemma strptimeYmd_HMS_disjoint (s : String) (d : PyDateTime)
    (h : strptimeYmd s = some d) : strptimeYmdHMS s = none := by
  cases hh : strptimeYmdHMS s with
  | none => rfl
  | some w =>
    obtain ⟨c, hc, hcw⟩ := strptimeYmdHMS_has_ws s w hh
    obtain ⟨_, hchars⟩ := strptimeYmd_chars s d h
    rcases hchars c hc with hd | hd
    · rw [digit_not_ws c hd] at hcw; cases hcw
    · rw [hd] at hcw; rw [hyphen_not_ws] at hcw; cases hcw

lemma string_eta (s : String) : String.mk s.data = s := by cases s; rfl

lemma strptimeYmd_no_ws (s : String) (d : PyDateTime) (h : strptimeYmd s = some d) :
    ∀ c ∈ s.data, c.isWhitespace = false := by
  obtain ⟨_, hchars⟩ := strptimeYmd_chars s d h
  intro c hc
  rcases hchars c hc with hd | hd
  · exact digit_not_ws c hd
  · rw [hd]; exact hyphen_not_ws

/-- A string with a non-empty character list is not the empty string. -/
lemma isEmpty_false_of_data {s : String} (h : s.data ≠ []) : s.isEmpty = false := by
  rw [Bool.eq_false_iff, Ne, String.isEmpty_iff]
  intro he
  rw [he] at h
  exact h rfl

/-- Every candidate accepted by the coercion's two-format loop is accepted
by the probe's parse, with the same calendar date. -/
lemma coerce_accept_probe (s : String) (d : PyDateTime)
    (h : coerceDateParse s = some d) :
    ∃ w, probe_parse s = some w ∧ w.year = d.year ∧ w.month = d.month ∧ w.day = d.day := by
  unfold coerceDateParse at h
  cases hy : strptimeYmd s with
  | some d0 =>
    rw [hy] at h
    injection h with h1
    have hnone : strptimeYmdHMS s = none := strptimeYmd_HMS_disjoint s d0 hy
    have hnw : ∀ c ∈ s.data, c.isWhitespace = false := strptimeYmd_no_ws s d0 hy
    have hne : s.data ≠ [] := (strptimeYmd_chars s d0 hy).1
    have hstrip : pyStripL s.data = s.data := pyStripL_of_no_ws s.data hnw
    have hsplit : splitWsL s.data = [s.data] := by
      rw [splitWs_eq_strip s.data (by rw [hstrip]; exact hnw), hstrip, if_neg]
      cases hdata : s.data with
      | nil => exact absurd hdata hne
      | cons a t => simp
    refine ⟨d0, ?_, by rw [h1], by rw [h1], by rw [h1]⟩
    simp only [probe_parse, hnone, hsplit]
    rw [string_eta]
    exact hy
  | none =>
    rw [hy] at h
    have h2 : strptimeYmdHMS s = some d := h
    refine ⟨d, ?_, rfl, rfl, rfl⟩
    simp only [probe_parse, h2]

/-- A candidate the probe cannot parse never triggers the probe. -/
lemma probe_skip_unparseable (latest : Option PyDateTime) (v : String)
    (h : probe_parse v = none) : recordTriggers latest ⟨some v⟩ = false := by
  simp only [recordTriggers]
  by_cases h1 : v.isEmpty || !(is_valid_created_at (some v))
  · rw [if_pos h1]
  · rw [if_neg h1, h]

/-- A successfully probed candidate contains a non-whitespace character. -/
lemma probe_parse_has_char (v : String) (w : PyDateTime)
    (h : probe_parse v = some w) : ∃ c ∈ v.data, c.isWhitespace = false := by
  unfold probe_parse at h
  cases hh : strptimeYmdHMS v with
  | some w2 =>
    obtain ⟨y, m, d, pre, rest, hsplit, hne, hchars, _⟩ :=
      parseYMDcore_split _ _ w2 hh
    obtain ⟨c, t, hct⟩ := List.exists_cons_of_ne_nil hne
    refine ⟨c, ?_, ?_⟩
    · rw [hsplit, hct]; simp
    · rcases hchars c (by rw [hct]; exact List.mem_cons_self c t) with hd | hd
      · exact digit_not_ws c hd
      · rw [hd]; exact hyphen_not_ws
  | none =>
    rw [hh] at h
    cases hs : splitWsL v.data with
    | nil => rw [hs] at h; cases h
    | cons t ts =>
      rw [hs] at h
      have h2 : strptimeYmd ⟨t⟩ = some w := h
      obtain ⟨hne, hchars⟩ := strptimeYmd_chars ⟨t⟩ w h2
      obtain ⟨c, t2, hct⟩ := List.exists_cons_of_ne_nil hne
      have hcmem : c ∈ t := by
        show c ∈ (String.mk t).data
        rw [hct]; exact List.mem_cons_self c t2
      have hmem_t : t ∈ splitWsAux v.data [] := by
        show t ∈ splitWsL v.data
        rw [hs]
        exact List.mem_cons_self t ts
      have hcv : c ∈ v.data := by
        rcases splitWsAux_mem_sub v.data [] t hmem_t c hcmem with h1 | h2
        · exact h1
        · cases h2
      refine ⟨c, hcv, ?_⟩
      rcases hchars c hcmem with hd | hd
      · exact digit_not_ws c hd
      · rw [hd]; exact hyphen_not_ws

/-- A successfully probed candidate passes the truthiness and validity
checks and, with no persisted date, triggers the probe. -/
lemma probe_triggers_of_parse (v : String) (w : PyDateTime)
    (h : probe_parse v = some w) : recordTriggers none ⟨some v⟩ = true := by
  obtain ⟨c, hcv, hcw⟩ := probe_parse_has_char v w h
  have hne : v.data ≠ [] := by
    intro hnil; rw [hnil] at hcv; cases hcv
  have hval : is_valid_created_at (some v) = true := by
    unfold is_valid_created_at
    simp only [Bool.not_eq_true']
    show (pyStripS v).isEmpty = false
    exact isEmpty_false_of_data (pyStripL_ne_nil v.data c hcv hcw)
  have hvne : v.isEmpty = false := isEmpty_false_of_data hne
  simp only [recordTriggers]
  rw [if_neg, h]
  rw [hvne, hval]
  simp

/-! ## Helper lemmas: duplicate partitioning -/

lemma bool_eq_false {b : Bool} (h : ¬ b = true) : b = false := by
  revert h
  cases b <;> simp

lemma sameKey3_iff (a b : NormRecord) : sameKey3 a b = true ↔
    a.title = b.title ∧ a.created_at = b.created_at ∧
      a.external_link = b.external_link := by
  unfold sameKey3
  simp [Bool.and_assoc]

lemma sameKey3_refl (a : NormRecord) : sameKey3 a a = true := by
  rw [sameKey3_iff]
  exact ⟨rfl, rfl, rfl⟩

lemma sameKey3_trans {a b c : NormRecord} (h1 : sameKey3 a b = true)
    (h2 : sameKey3 b c = true) : sameKey3 a c = true := by
  rw [sameKey3_iff] at h1 h2 ⊢
  exact ⟨h1.1.trans h2.1, h1.2.1.trans h2.2.1, h1.2.2.trans h2.2.2⟩

lemma nkey_eq_of_sameKey3 {a b : NormRecord} (h : sameKey3 a b = true) :
    nkey a = nkey b := by
  rw [sameKey3_iff] at h
  unfold nkey
  rw [h.1, h.2.1, h.2.2]

/-- The writer's "filter persisted duplicates, then drop intra-batch
duplicates" pass equals the one-pass characterization that keeps a record
iff its joined key is new and it is the first occurrence of its field
triple. -/
lemma dropDup_filter_eq (ks : List String) :
    ∀ (e seen prev : List NormRecord),
    (∀ x, seen.any (fun s => sameKey3 s x) =
      prev.any (fun s => sameKey3 s x && !(ks.contains (nkey s)))) →
    dropDupAux (e.filter (fun r => !(ks.contains (nkey r)))) seen =
      amendedNewAux ks e prev := by
  intro e
  induction e with
  | nil => intro seen prev hinv; rfl
  | cons r rs ih =>
    intro seen prev hinv
    show dropDupAux ((r :: rs).filter (fun r => !(ks.contains (nkey r)))) seen = _
    rw [List.filter_cons]
    by_cases hkr : ks.contains (nkey r)
    · rw [if_neg (by rw [hkr]; simp)]
      unfold amendedNewAux
      rw [if_neg (by rw [hkr]; simp)]
      refine ih seen (r :: prev) ?_
      intro x
      rw [hinv x]
      simp only [List.any_cons]
      rw [show (sameKey3 r x && !(ks.contains (nkey r))) = false by rw [hkr]; simp]
      simp
    · have hkr2 : ks.contains (nkey r) = false := bool_eq_false hkr
      rw [if_pos (by rw [hkr2]; simp)]
      by_cases hseen : seen.any (fun s => sameKey3 s r)
      · unfold dropDupAux
        rw [if_pos hseen]
        have hprev : prev.any (fun s => sameKey3 s r) = true := by
          have h2 := (hinv r).symm.trans hseen
          rw [List.any_eq_true] at h2 ⊢
          obtain ⟨s, hs, hss⟩ := h2
          rw [Bool.and_eq_true] at hss
          exact ⟨s, hs, hss.1⟩
        unfold amendedNewAux
        rw [if_neg (by rw [hprev]; simp)]
        refine ih seen (r :: prev) ?_
        intro x
        rw [hinv x]
        simp only [List.any_cons]
        by_cases hrx : sameKey3 r x
        · have hsx : seen.any (fun s => sameKey3 s x) = true := by
            rw [List.any_eq_true] at hseen ⊢
            obtain ⟨s, hs, hss⟩ := hseen
            exact ⟨s, hs, sameKey3_trans hss hrx⟩
          have hpx := (hinv x).symm.trans hsx
          rw [hpx]
          simp
        · rw [show (sameKey3 r x && !(ks.contains (nkey r))) = false by
            rw [bool_eq_false hrx]; simp]
          simp
      · have hseen2 : seen.any (fun s => sameKey3 s r) = false := bool_eq_false hseen
        have hprev : prev.any (fun s => sameKey3 s r) = false := by
          by_contra hcon
          have hpt : prev.any (fun s => sameKey3 s r) = true := by
            revert hcon
            cases prev.any (fun s => sameKey3 s r) <;> simp
          rw [List.any_eq_true] at hpt
          obtain ⟨s, hs, hss⟩ := hpt
          have hnk : nkey s = nkey r := nkey_eq_of_sameKey3 hss
          have hst : seen.any (fun s => sameKey3 s r) = true := by
            rw [hinv r, List.any_eq_true]
            refine ⟨s, hs, ?_⟩
            rw [Bool.and_eq_true]
            exact ⟨hss, by rw [hnk, hkr2]; simp⟩
          exact hseen hst
        unfold dropDupAux
        rw [if_neg (by rw [hseen2]; simp)]
        unfold amendedNewAux
        rw [if_pos (by rw [hkr2, hprev]; simp)]
        congr 1
        refine ih (r :: seen) (r :: prev) ?_
        intro x
        simp only [List.any_cons]
        rw [hinv x]
        by_cases hrx : sameKey3 r x
        · rw [hrx, hkr2]
          simp
        · rw [bool_eq_false hrx]
          simp

lemma mem_dropDupAux : ∀ (l seen : List NormRecord) (x : NormRecord),
    x ∈ dropDupAux l seen → x ∈ l := by
  intro l
  induction l with
  | nil => intro seen x hx; cases hx
  | cons r rs ih =>
    intro seen x hx
    unfold dropDupAux at hx
    by_cases hs : seen.any (fun s => sameKey3 s r)
    · rw [if_pos hs] at hx
      exact List.mem_cons_of_mem r (ih seen x hx)
    · rw [if_neg hs] at hx
      rcases List.mem_cons.mp hx with h1 | h2
      · exact h1 ▸ List.mem_cons_self r rs
      · exact List.mem_cons_of_mem r (ih (r :: seen) x h2)

lemma length_dropDupAux_le : ∀ (l seen : List NormRecord),
    (dropDupAux l seen).length ≤ l.length := by
  intro l
  induction l with
  | nil => intro seen; exact Nat.le_refl 0
  | cons r rs ih =>
    intro seen
    unfold dropDupAux
    by_cases hs : seen.any (fun s => sameKey3 s r)
    · rw [if_pos hs]
      exact Nat.le_succ_of_le (ih seen)
    · rw [if_neg hs]
      simpa using Nat.succ_le_succ (ih (r :: seen))

/-- Every record of the input has a representative with the same field
triple in the dedup output (when nothing similar was seen before). -/
lemma dropDupAux_covers : ∀ (l seen : List NormRecord) (x : NormRecord),
    x ∈ l → seen.any (fun s => sameKey3 s x) = false →
    ∃ y ∈ dropDupAux l seen, sameKey3 y x = true := by
  intro l
  induction l with
  | nil => intro seen x hx; cases hx
  | cons r rs ih =>
    intro seen x hx hseen
    unfold dropDupAux
    by_cases hs : seen.any (fun s => sameKey3 s r)
    · rw [if_pos hs]
      rcases List.mem_cons.mp hx with h1 | h2
      · subst h1
        rw [hs] at hseen
        cases hseen
      · exact ih seen x h2 hseen
    · rw [if_neg hs]
      by_cases hrx : sameKey3 r x
      · exact ⟨r, List.mem_cons_self _ _, hrx⟩
      · rcases List.mem_cons.mp hx with h1 | h2
        · subst h1
          exact absurd (sameKey3_refl x) hrx
        · have hseen2 : (r :: seen).any (fun s => sameKey3 s x) = false := by
            simp only [List.any_cons]
            rw [hseen, bool_eq_false hrx]
            rfl
          obtain ⟨y, hy, hyx⟩ := ih (r :: seen) x h2 hseen2
          exact ⟨y, List.mem_cons_of_mem r hy, hyx⟩

lemma amendedNewAux_nil_of_keys (ks : List String) :
    ∀ (l prev : List NormRecord), (∀ r ∈ l, ks.contains (nkey r) = true) →
    amendedNewAux ks l prev = [] := by
  intro l
  induction l with
  | nil => intro prev h; rfl
  | cons r rs ih =>
    intro prev h
    unfold amendedNewAux
    rw [if_neg]
    · exact ih (r :: prev) (fun x hx => h x (List.mem_cons_of_mem r hx))
    · rw [h r (List.mem_cons_self r rs)]
      simp

lemma mem_entityBatch (r : NormRecord) (df : List InRecord) (entity : String)
    (h : r ∈ entityBatch df entity) :
    r.entity = entity ∧ pyStripS r.title = r.title := by
  unfold entityBatch at h
  rw [List.mem_map] at h
  obtain ⟨orig, hmem, hmap⟩ := h
  rw [List.mem_filter] at hmem
  constructor
  · rw [← hmap]
    unfold normIn
    simpa using hmem.2
  · rw [← hmap]
    unfold normIn
    exact pyStripS_idem orig.title

lemma dbProj_append (t1 t2 : List StoredRecord) (entity : String) :
    dbProj (t1 ++ t2) entity = dbProj t1 entity ++ dbProj t2 entity := by
  unfold dbProj
  rw [List.filter_append, List.map_append]

lemma preDedup_eq_filter (table : List StoredRecord) (df : List InRecord)
    (entity : String) :
    preDedup table df entity = (entityBatch df entity).filter
      (fun r => !(((dbProj table entity).map nkey).contains (nkey r))) := by
  unfold preDedup
  by_cases hdb : (dbProj table entity).isEmpty
  · rw [if_pos hdb]
    have hnil : dbProj table entity = [] := by
      cases h : dbProj table entity with
      | nil => rfl
      | cons a t => rw [h] at hdb; simp at hdb
    rw [hnil]
    rw [Eq.comm, List.filter_eq_self]
    intro a _
    simp
  · rw [if_neg hdb]

/-- The writer's new-record computation equals the amended one-pass
characterization. -/
lemma newRecordsFor_eq_amended (table : List StoredRecord) (df : List InRecord)
    (entity : String) :
    newRecordsFor table df entity = amendedNewRecords table df entity := by
  unfold newRecordsFor amendedNewRecords
  by_cases he : (entityBatch df entity).isEmpty
  · rw [if_pos he]
    have hnil : entityBatch df entity = [] := by
      cases h : entityBatch df entity with
      | nil => rfl
      | cons a t => rw [h] at he; simp at he
    rw [hnil]
    rfl
  · rw [if_neg he, preDedup_eq_filter]
    exact dropDup_filter_eq _ (entityBatch df entity) [] [] (fun x => rfl)

lemma dbProj_map_toStored (l : List NormRecord) (entity : String)
    (h : ∀ r ∈ l, r.entity = entity ∧ pyStripS r.title = r.title) :
    dbProj (l.map toStored) entity = l := by
  induction l with
  | nil => rfl
  | cons r t ih =>
    obtain ⟨hent, htitle⟩ := h r (List.mem_cons_self r t)
    have hrest := fun x hx => h x (List.mem_cons_of_mem r hx)
    unfold dbProj at ih ⊢
    rw [List.map_cons, List.filter_cons, if_pos (by simp [toStored, hent])]
    rw [List.map_cons, ih hrest]
    congr 1
    cases r with
    | mk a b c d =>
      simp only [toStored, Option.getD_some]
      simp only at htitle
      rw [htitle]

/-- The records of the writer's output lie in the normalized entity
batch. -/
lemma newRecordsFor_sub (table : List StoredRecord) (df : List InRecord)
    (entity : String) (r : NormRecord) (h : r ∈ newRecordsFor table df entity) :
    r ∈ entityBatch df entity := by
  unfold newRecordsFor at h
  by_cases he : (entityBatch df entity).isEmpty
  · rw [if_pos he] at h; cases h
  · rw [if_neg he] at h
    have h2 := mem_dropDupAux _ _ _ h
    rw [preDedup_eq_filter] at h2
    exact (List.mem_filter.mp h2).1

/-- Running the writer a second time against the store extended with the
first run's inserted rows yields no new records: the dedup is
idempotent. -/
lemma newRecordsFor_idem (table : List StoredRecord) (df : List InRecord)
    (entity : String) :
    newRecordsFor (table ++ (newRecordsFor table df entity).map toStored) df entity
      = [] := by
  by_cases he : (entityBatch df entity).isEmpty
  · unfold newRecordsFor
    rw [if_pos he]
  · rw [newRecordsFor_eq_amended]
    unfold amendedNewRecords
    refine amendedNewAux_nil_of_keys _ _ [] ?_
    intro r hr
    have hproj : dbProj (table ++ (newRecordsFor table df entity).map toStored) entity
        = dbProj table entity ++ newRecordsFor table df entity := by
      rw [dbProj_append, dbProj_map_toStored]
      intro x hx
      exact mem_entityBatch x df entity (newRecordsFor_sub table df entity x hx)
    rw [hproj, List.map_append, List.elem_iff, List.mem_append]
    by_cases hk : ((dbProj table entity).map nkey).contains (nkey r)
    · exact Or.inl (List.elem_iff.mp hk)
    · right
      have hkf : ((dbProj table entity).map nkey).contains (nkey r) = false :=
        bool_eq_false hk
      have hrf : r ∈ preDedup table df entity := by
        rw [preDedup_eq_filter, List.mem_filter]
        exact ⟨hr, by rw [hkf]; rfl⟩
      obtain ⟨y, hy, hyx⟩ := dropDupAux_covers (preDedup table df entity) [] r hrf rfl
      have hymem : y ∈ newRecordsFor table df entity := by
        unfold newRecordsFor
        rw [if_neg he]
        exact hy
      rw [List.mem_map]
      exact ⟨y, hymem, nkey_eq_of_sameKey3 hyx⟩

/-! ## Helper lemmas: the writer's duplicate counters -/

lemma duplicates_found_nonneg (table : List StoredRecord) (df : List InRecord)
    (entity : String) : 0 ≤ duplicates_found_of table df entity := by
  unfold duplicates_found_of
  by_cases hdb : (dbProj table entity).isEmpty
  · rw [if_pos hdb]
  · rw [if_neg hdb]
    rw [sub_nonneg, Nat.cast_le, preDedup_eq_filter]
    exact List.length_filter_le _ _

lemma internal_duplicates_nonneg (table : List StoredRecord) (df : List InRecord)
    (entity : String) : 0 ≤ internal_duplicates_of table df entity := by
  unfold internal_duplicates_of duplicates_found_of
  have hnew : ((newRecordsFor table df entity).length : Int) ≤
      ((preDedup table df entity).length : Int) := by
    rw [Nat.cast_le]
    unfold newRecordsFor
    by_cases he : (entityBatch df entity).isEmpty
    · rw [if_pos he]; exact Nat.zero_le _
    · rw [if_neg he]; exact length_dropDupAux_le _ []
  have hpre : ((preDedup table df entity).length : Int) ≤
      ((entityBatch df entity).length : Int) := by
    rw [Nat.cast_le, preDedup_eq_filter]
    exact List.length_filter_le _ _
  by_cases hdb : (dbProj table entity).isEmpty
  · rw [if_pos hdb]
    have hpe : preDedup table df entity = entityBatch df entity := by
      unfold preDedup
      rw [if_pos hdb]
    rw [hpe] at hnew
    omega
  · rw [if_neg hdb]
    omega

/-! ## Helper lemmas: the validator's fold -/

lemma applyStep_req (acc : VState) (fr : String × FieldRule) :
    (applyStep acc fr).2.2 =
      acc.2.2 ++ (if fr.2.required then [fr.1] else []) := by
  unfold applyStep
  by_cases hmem : fr.1 ∈ acc.1.cols
  · rw [if_pos hmem]
    by_cases hreq : fr.2.required
    · simp [hreq]
    · simp [hreq]
  · rw [if_neg hmem]
    by_cases hreq : fr.2.required
    · simp [hreq]
    · simp [hreq]

lemma applyStep_rows_len (acc : VState) (fr : String × FieldRule) :
    (applyStep acc fr).1.rows.length = acc.1.rows.length := by
  unfold applyStep
  by_cases hmem : fr.1 ∈ acc.1.cols
  · rw [if_pos hmem]
    simp
  · rw [if_neg hmem]
    simp

lemma validationFold_req_aux :
    ∀ (rules : List (String × FieldRule)) (acc : VState),
    (rules.foldl applyStep acc).2.2 =
      acc.2.2 ++ (rules.filter (fun fr => fr.2.required)).map Prod.fst := by
  intro rules
  induction rules with
  | nil => intro acc; simp
  | cons fr rest ih =>
    intro acc
    rw [List.foldl_cons, ih (applyStep acc fr), applyStep_req, List.filter_cons]
    by_cases hreq : fr.2.required
    · simp [hreq]
    · simp [hreq]

/-- The required fields collected by the fold are exactly the required
fields of the ruleset, in order. -/
lemma validationFold_req (df : DFrame) (rules : List (String × FieldRule)) :
    (validationFold df rules).2.2 =
      (rules.filter (fun fr => fr.2.required)).map Prod.fst := by
  unfold validationFold
  rw [validationFold_req_aux]
  rfl

lemma validationFold_rows_len_aux :
    ∀ (rules : List (String × FieldRule)) (acc : VState),
    (rules.foldl applyStep acc).1.rows.length = acc.1.rows.length := by
  intro rules
  induction rules with
  | nil => intro acc; rfl
  | cons fr rest ih =>
    intro acc
    rw [List.foldl_cons, ih (applyStep acc fr), applyStep_rows_len]

lemma processedFrame_rows_len (df : DFrame) (rules : List (String × FieldRule)) :
    (processedFrame df rules).rows.length = df.rows.length := by
  unfold processedFrame validationFold
  rw [validationFold_rows_len_aux]

/-! ## Claim theorems -/

/-- C3: if the latest-persisted-date accessor raises, `check_for_new_content`
returns true; and if the accessor returns no persisted date and some probed
page yields a record with a parseable creation date, it also returns true. -/
theorem c3_probe_conservatism :
    (∀ (err : String) (pages : Nat → List ProbeRecord) (n : Nat),
      check_for_new_content (.error err) pages n = true) ∧
    (∀ (pages : Nat → List ProbeRecord) (n p : Nat) (r : ProbeRecord) (v : String)
      (w : PyDateTime), p < n → r ∈ pages p → r.created_at = some v →
      probe_parse v = some w →
      check_for_new_content (.ok none) pages n = true) := by
  constructor
  · intro err pages n
    rfl
  · intro pages n p r v w hpn hmem hca hparse
    unfold check_for_new_content
    rw [List.any_eq_true]
    refine ⟨p, List.mem_range.mpr hpn, ?_⟩
    rw [List.any_eq_true]
    refine ⟨r, hmem, ?_⟩
    cases r with
    | mk ca =>
      cases hca
      exact probe_triggers_of_parse v w hparse

theorem c3_probe_conservatism_witness :
    check_for_new_content (.error "db failure") (fun _ => []) 3 = true ∧
    check_for_new_content (.ok none) (fun _ => [⟨some "2024-01-02"⟩]) 1 = true := by
  refine ⟨c3_probe_conservatism.1 "db failure" (fun _ => []) 3, ?_⟩
  exact c3_probe_conservatism.2 (fun _ => [⟨some "2024-01-02"⟩]) 1 0
    ⟨some "2024-01-02"⟩ "2024-01-02" ⟨2024, 1, 2, 0, 0, 0⟩ (by decide)
    (List.mem_singleton.mpr rfl) rfl (by decide)

/-- C10: if the accessor succeeds (even returning no persisted date) but no
probed page yields a record with a parseable creation date — for example
every page comes back empty — `check_for_new_content` returns false. -/
theorem c10_probe_false_when_nothing_parseable :
    ∀ (latest : Option PyDateTime) (pages : Nat → List ProbeRecord) (n : Nat),
    (∀ p, p < n → ∀ r ∈ pages p, ∀ v, r.created_at = some v → probe_parse v = none) →
    check_for_new_content (.ok latest) pages n = false := by
  intro latest pages n h
  unfold check_for_new_content
  rw [List.any_eq_false]
  intro p hp
  rw [List.mem_range] at hp
  rw [Bool.not_eq_true, List.any_eq_false]
  intro r hr
  rw [Bool.not_eq_true]
  cases r with
  | mk ca =>
    cases hca : ca with
    | none =>
      cases hca
      rfl
    | some v =>
      cases hca
      exact probe_skip_unparseable latest v (h p hp ⟨some v⟩ hr v rfl)

theorem c10_probe_false_witness :
    check_for_new_content (.ok none) (fun _ => []) 3 = false := by
  refine c10_probe_false_when_nothing_parseable none (fun _ => []) 3 ?_
  intro p hp r hr v hv
  cases hr

/-- C9: the claim asserts that for some persisted state and batch the
subtraction-derived duplicate counters become negative; this is false — no
input makes either counter negative. -/
theorem c9_counterexample :
    ¬ ∃ (table : List StoredRecord) (df : List InRecord) (entity : String),
      duplicates_found_of table df entity < 0 ∨
      internal_duplicates_of table df entity < 0 := by
  rintro ⟨table, df, entity, h | h⟩
  · exact absurd h (not_lt.mpr (duplicates_found_nonneg table df entity))
  · exact absurd h (not_lt.mpr (internal_duplicates_nonneg table df entity))

/-- C9 (amended): the writer's subtraction-derived counters
`duplicates_found` and `internal_duplicates` are nonnegative for every
persisted state and incoming batch. -/
theorem c9_counts_nonneg :
    ∀ (table : List StoredRecord) (df : List InRecord) (entity : String),
      0 ≤ duplicates_found_of table df entity ∧
      0 ≤ internal_duplicates_of table df entity :=
  fun table df entity =>
    ⟨duplicates_found_nonneg table df entity,
     internal_duplicates_nonneg table df entity⟩

/-- C6: the claim asserts the probe accepts a candidate date string iff the
coercion's date parser accepts it; false — the probe's fallback parses only
the first whitespace-delimited token, so it accepts strings the coercion
rejects. -/
theorem c6_counterexample :
    ¬ ((probe_parse "2024-01-02 extra").isSome =
        (coerceDateParse "2024-01-02 extra").isSome) := by
  decide

/-- C6 (amended): every candidate accepted by the coercion's ordered
format loop is accepted by the probe with the same calendar date (the
probe tries `%Y-%m-%d %H:%M:%S` on the full string, then `%Y-%m-%d` on the
first whitespace token), and unparseable candidates are skipped, never
counted as new content. -/
theorem c6_probe_refines_coercion :
    (∀ (s : String) (d : PyDateTime), coerceDateParse s = some d →
      ∃ w, probe_parse s = some w ∧ w.year = d.year ∧ w.month = d.month ∧
        w.day = d.day) ∧
    (∀ (latest : Option PyDateTime) (v : String), probe_parse v = none →
      recordTriggers latest ⟨some v⟩ = false) :=
  ⟨coerce_accept_probe, probe_skip_unparseable⟩

theorem c6_probe_refines_coercion_witness :
    (∃ w, probe_parse "2024-05-06" = some w ∧
      w.year = (⟨2024, 5, 6, 0, 0, 0⟩ : PyDateTime).year ∧
      w.month = (⟨2024, 5, 6, 0, 0, 0⟩ : PyDateTime).month ∧
      w.day = (⟨2024, 5, 6, 0, 0, 0⟩ : PyDateTime).day) ∧
    recordTriggers none ⟨some "sin fecha aun"⟩ = false :=
  ⟨c6_probe_refines_coercion.1 "2024-05-06" ⟨2024, 5, 6, 0, 0, 0⟩ (by decide),
   c6_probe_refines_coercion.2 none "sin fecha aun" (by decide)⟩

/-- C7: the claim asserts rows with unparseable creation-date text are
skipped; false — non-empty text that is neither `T`-style nor
`DD/MM/YYYY` is kept as the raw `created_at` value and the row is
emitted. -/
theorem c7_counterexample :
    containsChar "sin fecha" 'T' = false ∧
    containsChar "sin fecha" '/' = false ∧
    extract_creation_date
      ⟨some ⟨some ⟨"Decreto 123", some "/a"⟩⟩, none,
       some ⟨some ⟨none, "sin fecha"⟩, "sin fecha"⟩⟩ = (true, some "sin fecha") ∧
    (process_row "2024-01-01 00:00:00"
      ⟨some ⟨some ⟨"Decreto 123", some "/a"⟩⟩, none,
       some ⟨some ⟨none, "sin fecha"⟩, "sin fecha"⟩⟩).isSome = true := by
  decide

/-- C7 (amended): the extractor skips a row for its creation date exactly
when the extracted `created_at` value is missing or whitespace-blank;
non-empty unparseable text is kept raw and the row is emitted. -/
theorem c7_date_skip_iff_blank :
    ∀ row : HtmlRowM, (extract_creation_date row).1 = true ↔
      ∃ s, extract_creation_date_value row = some s ∧
        (pyStripS s).isEmpty = false := by
  intro row
  unfold extract_creation_date
  cases hv : extract_creation_date_value row with
  | none => simp [is_valid_created_at]
  | some s => simp [is_valid_created_at]

theorem c7_date_skip_iff_blank_witness :
    (extract_creation_date
      ⟨some ⟨some ⟨"Resolución 9", some "/b"⟩⟩, none,
       some ⟨some ⟨some "2024-03-15T00:00:00", "15/03/2024"⟩, "x"⟩⟩).1 = true :=
  (c7_date_skip_iff_blank
    ⟨some ⟨some ⟨"Resolución 9", some "/b"⟩⟩, none,
     some ⟨some ⟨some "2024-03-15T00:00:00", "15/03/2024"⟩, "x"⟩⟩).mpr
    ⟨"2024-03-15", by decide, by decide⟩

lemma newRecords_empty_of_batch_empty (table : List StoredRecord) (df : List InRecord)
    (entity : String) (he : (entityBatch df entity).isEmpty = true) :
    newRecordsFor table df entity = [] := by
  unfold newRecordsFor
  rw [if_pos he]

lemma batch_nonempty_of_newRecords (table : List StoredRecord) (df : List InRecord)
    (entity : String) (h : newRecordsFor table df entity ≠ []) :
    (entityBatch df entity).isEmpty = false := by
  by_cases he : (entityBatch df entity).isEmpty
  · exact absurd (newRecords_empty_of_batch_empty table df entity he) h
  · exact bool_eq_false he

/-- With a successful bulk insert (returning the row count, as
`bulk_insert` does) the writer's returned count is the number of records
it computed as new. -/
lemma insert_count_ok (table : List StoredRecord) (df : List InRecord)
    (entity : String) (fids : Nat → List Int)
    (comp : List Int → Except String Nat) :
    (insert_new_records table df entity (fun l => .ok l.length) fids comp).1 =
      (newRecordsFor table df entity).length := by
  by_cases he : (entityBatch df entity).isEmpty
  · have hnr := newRecords_empty_of_batch_empty table df entity he
    simp only [insert_new_records, he, if_true, hnr]
    rfl
  · have hef : (entityBatch df entity).isEmpty = false := bool_eq_false he
    simp only [insert_new_records, hef]
    by_cases hni : (newRecordsFor table df entity).isEmpty
    · have hnil : newRecordsFor table df entity = [] := List.isEmpty_iff.mp hni
      simp [hni, hnil]
    · have hnif : (newRecordsFor table df entity).isEmpty = false := bool_eq_false hni
      have hlen : (newRecordsFor table df entity).length ≠ 0 := by
        intro h0
        rw [List.length_eq_zero] at h0
        rw [h0] at hnif
        simp at hnif
      simp [hnif, hlen]

/-- C4: when the bulk insert of new records fails with an error whose text
indicates a uniqueness/duplicate collision, `insert_new_records` does not
propagate the exception: it returns a zero count with the explanatory
duplicate message. -/
theorem c4_unique_violation_absorbed :
    ∀ (table : List StoredRecord) (df : List InRecord) (entity err : String)
      (fids : Nat → List Int) (comp : List Int → Except String Nat),
    newRecordsFor table df entity ≠ [] →
    (hasSubS (pyLower err) "duplicate" || hasSubS (pyLower err) "unique") = true →
    insert_new_records table df entity (fun _ => .error err) fids comp =
      (0, "Some records for entity " ++ entity ++ " were duplicates and skipped") := by
  intro table df entity err fids comp hne hdup
  have hef := batch_nonempty_of_newRecords table df entity hne
  have hnif : (newRecordsFor table df entity).isEmpty = false := by
    cases h : newRecordsFor table df entity with
    | nil => exact absurd h hne
    | cons a t => simp
  simp only [insert_new_records, hef, hnif, hdup]
  simp

theorem c4_unique_violation_absorbed_witness :
    insert_new_records []
      [⟨"Decreto 1", "2024-01-02", some "https://a.co/x", ENTITY_VALUE⟩]
      ENTITY_VALUE
      (fun _ => .error "ERROR: duplicate key value violates unique constraint")
      (fun _ => []) (fun _ => .ok 0) =
      (0, "Some records for entity " ++ ENTITY_VALUE ++
        " were duplicates and skipped") :=
  c4_unique_violation_absorbed []
    [⟨"Decreto 1", "2024-01-02", some "https://a.co/x", ENTITY_VALUE⟩]
    ENTITY_VALUE "ERROR: duplicate key value violates unique constraint"
    (fun _ => []) (fun _ => .ok 0) (by decide) (by decide)

/-- C5: the claim asserts a non-uniqueness bulk-insert failure yields the
500-equivalent failure result; false — `insert_new_records` catches the
re-raised error itself and returns normally, so the handler reports a
200-equivalent success carrying the error message. -/
theorem c5_counterexample :
    lambda_write_stage (.ok ()) []
      [⟨"Decreto 1", "2024-01-02", some "https://a.co/x", ENTITY_VALUE⟩]
      ENTITY_VALUE (fun _ => .error "disk full") (fun _ => []) (fun _ => .ok 0) =
      ⟨200, "Error processing entity " ++ ENTITY_VALUE ++ ": disk full", true⟩ := by
  decide

/-- C5 (amended): a non-uniqueness bulk-insert failure is caught inside
`insert_new_records`, and the handler reports a 200-equivalent success
(`success = true`) whose message carries the error text; the
500-equivalent failure (`success = false`) arises only when an exception
escapes a stage, e.g. when the database connection cannot be
established. -/
theorem c5_insert_failure_reported_as_success :
    (∀ (table : List StoredRecord) (df : List InRecord) (entity err : String)
      (fids : Nat → List Int) (comp : List Int → Except String Nat),
      newRecordsFor table df entity ≠ [] →
      (hasSubS (pyLower err) "duplicate" || hasSubS (pyLower err) "unique") = false →
      lambda_write_stage (.ok ()) table df entity (fun _ => .error err) fids comp =
        ⟨200, "Error processing entity " ++ entity ++ ": " ++ err, true⟩) ∧
    (∀ (exc : String) (table : List StoredRecord) (df : List InRecord) (entity : String)
      (bi : List NormRecord → Except String Nat) (fids : Nat → List Int)
      (comp : List Int → Except String Nat),
      lambda_write_stage (.error exc) table df entity bi fids comp =
        ⟨500, "Error en la ejecución del proceso: " ++ exc, false⟩) := by
  constructor
  · intro table df entity err fids comp hne hdup
    have hef := batch_nonempty_of_newRecords table df entity hne
    have hnif : (newRecordsFor table df entity).isEmpty = false := by
      cases h : newRecordsFor table df entity with
      | nil => exact absurd h hne
      | cons a t => simp
    simp only [lambda_write_stage, insert_new_records, hef, hnif, hdup]
    simp
  · intro exc table df entity bi fids comp
    rfl

theorem c5_insert_failure_reported_as_success_witness :
    lambda_write_stage (.ok ()) []
      [⟨"Resolución 2", "2024-02-03", some "https://b.co/y", ENTITY_VALUE⟩]
      ENTITY_VALUE (fun _ => .error "connection lost") (fun _ => []) (fun _ => .ok 0) =
      ⟨200, "Error processing entity " ++ ENTITY_VALUE ++ ": connection lost", true⟩ ∧
    lambda_write_stage (.error "could not connect") []
      [] ENTITY_VALUE (fun _ => .ok 0) (fun _ => []) (fun _ => .ok 0) =
      ⟨500, "Error en la ejecución del proceso: could not connect", false⟩ :=
  ⟨c5_insert_failure_reported_as_success.1 []
    [⟨"Resolución 2", "2024-02-03", some "https://b.co/y", ENTITY_VALUE⟩]
    ENTITY_VALUE "connection lost" (fun _ => []) (fun _ => .ok 0)
    (by decide) (by decide),
   c5_insert_failure_reported_as_success.2 "could not connect" [] []
    ENTITY_VALUE (fun _ => .ok 0) (fun _ => []) (fun _ => .ok 0)⟩

/-- C1: the claim asserts the writer inserts exactly the records whose
tuple identity key is absent from the persisted keys and first in the
batch; false — the persisted-duplicate check joins the key fields with
`"|"`, so a record whose fields merely concatenate to a persisted row's
joined key is wrongly treated as a duplicate although its tuple key is
new. -/
theorem c1_counterexample :
    newRecordsFor
      [⟨"A|2024-01-01|http://x", "2024-01-01", ENTITY_VALUE, some "http://x"⟩]
      [⟨"A", "2024-01-01", some "http://x|2024-01-01|http://x", ENTITY_VALUE⟩]
      ENTITY_VALUE = [] ∧
    (claimTupleNewRecords
      [⟨"A|2024-01-01|http://x", "2024-01-01", ENTITY_VALUE, some "http://x"⟩]
      [⟨"A", "2024-01-01", some "http://x|2024-01-01|http://x", ENTITY_VALUE⟩]
      ENTITY_VALUE).length = 1 ∧
    (insert_new_records
      [⟨"A|2024-01-01|http://x", "2024-01-01", ENTITY_VALUE, some "http://x"⟩]
      [⟨"A", "2024-01-01", some "http://x|2024-01-01|http://x", ENTITY_VALUE⟩]
      ENTITY_VALUE (fun l => .ok l.length) (fun _ => []) (fun _ => .ok 0)).1 = 0 := by
  decide

/-- C1 (amended): the writer inserts exactly the normalized batch records
whose `"|"`-joined string key is absent from the persisted rows' joined
keys and which are the first occurrence of their field triple within the
batch; with a successful bulk insert the returned count is the size of
that set, and re-running the writer after its own insert finds zero new
records. -/
theorem c1_dedup_partition :
    ∀ (table : List StoredRecord) (df : List InRecord) (entity : String)
      (fids : Nat → List Int) (comp : List Int → Except String Nat),
    newRecordsFor table df entity = amendedNewRecords table df entity ∧
    (insert_new_records table df entity (fun l => .ok l.length) fids comp).1 =
      (newRecordsFor table df entity).length ∧
    newRecordsFor (table ++ (newRecordsFor table df entity).map toStored) df entity
      = [] ∧
    (insert_new_records (table ++ (newRecordsFor table df entity).map toStored) df
      entity (fun l => .ok l.length) fids comp).1 = 0 := by
  intro table df entity fids comp
  refine ⟨newRecordsFor_eq_amended table df entity,
    insert_count_ok table df entity fids comp, newRecordsFor_idem table df entity, ?_⟩
  rw [insert_count_ok, newRecordsFor_idem]
  rfl

lemma apply_validation_rows (df : DFrame) (rules : List (String × FieldRule))
    (h : df.rows.isEmpty = false) :
    (apply_validation df rules).1.rows =
      (if ((validationFold df rules).2.2).isEmpty then (processedFrame df rules).rows
       else (processedFrame df rules).rows.filter
         (fun r => ((validationFold df rules).2.2).all (fun f => (rowGet r f).isSome))) := by
  simp only [apply_validation, h]
  rfl

/-- C2: every output row of `apply_validation` is non-null in every field
the ruleset marks required; a (processed) row is kept iff, after type
coercion, regex and max-length nulling, all its required fields are
non-null — so rows whose only nulled fields are non-required are kept. -/
theorem c2_required_field_invariant :
    ∀ (df : DFrame) (rules : List (String × FieldRule)) (r : Row),
    r ∈ (apply_validation df rules).1.rows ↔
      (r ∈ (processedFrame df rules).rows ∧
        ∀ f cfg, (f, cfg) ∈ rules → cfg.required = true →
          (rowGet r f).isSome = true) := by
  intro df rules r
  by_cases hdf : df.rows.isEmpty
  · have hnil : df.rows = [] := List.isEmpty_iff.mp hdf
    have hplen : (processedFrame df rules).rows = [] := by
      have hlen := processedFrame_rows_len df rules
      rw [hnil] at hlen
      exact List.length_eq_zero.mp hlen
    have happ : (apply_validation df rules).1.rows = [] := by
      simp only [apply_validation, hdf, if_true]
      exact hnil
    rw [happ, hplen]
    simp
  · rw [apply_validation_rows df rules (bool_eq_false hdf)]
    have hreqeq : (validationFold df rules).2.2 =
        (rules.filter (fun fr => fr.2.required)).map Prod.fst :=
      validationFold_req df rules
    by_cases hre : ((validationFold df rules).2.2).isEmpty
    · rw [if_pos hre]
      have hreqnil : (validationFold df rules).2.2 = [] := List.isEmpty_iff.mp hre
      constructor
      · intro hmem
        refine ⟨hmem, ?_⟩
        intro f cfg hfc hcr
        exfalso
        have hmem2 : (f, cfg) ∈ rules.filter (fun fr => fr.2.required) :=
          List.mem_filter.mpr ⟨hfc, hcr⟩
        rw [hreqnil] at hreqeq
        have h2 : rules.filter (fun fr => fr.2.required) = [] := by
          cases hh : rules.filter (fun fr => fr.2.required) with
          | nil => rfl
          | cons a t =>
            rw [hh] at hreqeq
            simp at hreqeq
        rw [h2] at hmem2
        cases hmem2
      · intro h
        exact h.1
    · rw [if_neg hre, List.mem_filter]
      constructor
      · rintro ⟨hmem, hall⟩
        refine ⟨hmem, ?_⟩
        intro f cfg hfc hcr
        rw [List.all_eq_true] at hall
        refine hall f ?_
        rw [hreqeq, List.mem_map]
        exact ⟨(f, cfg), List.mem_filter.mpr ⟨hfc, hcr⟩, rfl⟩
      · rintro ⟨hmem, hforall⟩
        refine ⟨hmem, ?_⟩
        rw [List.all_eq_true]
        intro f hf
        rw [hreqeq, List.mem_map] at hf
        obtain ⟨fr, hfr, hfst⟩ := hf
        have h2 := List.mem_filter.mp hfr
        exact hfst ▸ hforall fr.1 fr.2 h2.1 h2.2

theorem c2_required_field_invariant_witness :
    [("title", some (Value.vStr "hi"))] ∈
      (apply_validation ⟨["title"], [[("title", some (Value.vStr " hi "))]]⟩
        [("title", { ftype := some "string", required := true })]).1.rows :=
  (c2_required_field_invariant
    ⟨["title"], [[("title", some (Value.vStr " hi "))]]⟩
    [("title", { ftype := some "string", required := true })]
    [("title", some (Value.vStr "hi"))]).mpr
    ⟨by decide, by
      intro f cfg hmem hreq
      rw [List.mem_singleton] at hmem
      have hf : f = "title" := congrArg Prod.fst hmem
      rw [hf]
      decide⟩


/-- The 65-character title used by the boundary check. -/
def titleA65 : String := ⟨List.replicate 65 'a'⟩

/-- The 66-character title used by the boundary check. -/
def titleA66 : String := ⟨List.replicate 66 'a'⟩

/-- A listing row whose anchor text is the given title. -/
def boundaryRow (t : String) : HtmlRowM :=
  ⟨some ⟨some ⟨t, some "/doc"⟩⟩, none,
   some ⟨some ⟨some "2024-03-15T00:00:00", "15/03/2024"⟩, "x"⟩⟩

/-- A one-row validated frame whose title is the given string. -/
def boundaryFrame (t : String) : DFrame :=
  { cols := ["created_at", "update_at", "is_active", "title", "gtype", "entity",
             "external_link", "rtype_id", "summary", "classification_id"],
    rows := [[("created_at", some (.vStr "2024-03-15")),
              ("update_at", some (.vStr "2024-03-15 10:00:00")),
              ("is_active", some (.vBool true)),
              ("title", some (.vStr t)),
              ("gtype", some (.vStr "link")),
              ("entity", some (.vStr "Agencia Nacional de Infraestructura")),
              ("external_link", some (.vStr "https://www.ani.gov.co/doc")),
              ("rtype_id", some (.vInt 14)),
              ("summary", none),
              ("classification_id", some (.vInt 13))]] }

/-- C8: a title of exactly 65 characters after cleaning is retained and a
66-character title is rejected, both by the extractor's row filter and by
the validator's `max_length` rule of the built-in ruleset. -/
theorem c8_title_length_boundary :
    extract_title_and_link (boundaryRow titleA65) =
      some (titleA65, "https://www.ani.gov.co/doc") ∧
    extract_title_and_link (boundaryRow titleA66) = none ∧
    (apply_validation (boundaryFrame titleA65) defaultRules).1.rows.length = 1 ∧
    (apply_validation (boundaryFrame titleA66) defaultRules).1.rows.length = 0 := by
  decide


end Ani
